import Mathlib

/-!
Verification of the product/orders API (`src/app.py`), a Flask service storing
products and orders in one JSON document on disk.

The embedding models the JSON/Python value universe (`PyVal`), the persisted
file (`FileState`, abstracting the byte content of the db file by the
observations the code makes of it: existence, whitespace-only content, and the
result of `json.loads`), and each route handler as a pure function from the
request body and file state to a response and new file state.  Randomness
(`uuid.uuid4().hex`) and the clock (`now_iso()`) are passed as explicit
arguments.  Authentication (`require_api_key`) is out of scope: handlers are
modelled after the key check has passed.
-/

namespace ProductOrdersApi

/-- The universe of Python values the service manipulates: everything JSON can
produce plus the distinction between `int` and `float` that Python keeps.
Floats are modelled as rationals; no claim depends on binary rounding. -/
inductive PyVal where
  | none
  | bool (b : Bool)
  | int (n : Int)
  | float (q : ℚ)
  | str (s : String)
  | list (xs : List PyVal)
  | dict (kvs : List (String × PyVal))
deriving Repr

/-- Python truthiness (`bool(v)`): `None`, `False`, zero, and empty
string/list/dict are falsy. -/
def pyTruthy : PyVal → Bool
  | .none => false
  | .bool b => b
  | .int n => n != 0
  | .float q => q != 0
  | .str s => s != ""
  | .list xs => !xs.isEmpty
  | .dict kvs => !kvs.isEmpty

/-- Assoc-list lookup modelling Python dict key access (dicts built by the
code never carry duplicate keys, and `json.loads` collapses duplicates). -/
def dlookup (kvs : List (String × PyVal)) (k : String) : Option PyVal :=
  match kvs with
  | [] => Option.none
  | (k1, v) :: rest => if k1 = k then some v else dlookup rest k

/-- `d.get(k)`: value at `k`, or Python `None` when the key is absent. -/
def dget (kvs : List (String × PyVal)) (k : String) : PyVal :=
  (dlookup kvs k).getD PyVal.none

/-- `d.get(k, default)`. -/
def dgetD (kvs : List (String × PyVal)) (k : String) (dflt : PyVal) : PyVal :=
  (dlookup kvs k).getD dflt

/-- `k in d`. -/
def dmem (kvs : List (String × PyVal)) (k : String) : Bool :=
  (dlookup kvs k).isSome

/-- `d[k] = v`: Python dict assignment — replaces the value in place if the
key exists, else appends the new key (insertion order is preserved). -/
def dictSet (kvs : List (String × PyVal)) (k : String) (v : PyVal) :
    List (String × PyVal) :=
  match kvs with
  | [] => [(k, v)]
  | (k1, v1) :: rest =>
      if k1 = k then (k1, v) :: rest else (k1, v1) :: dictSet rest k v

/-- Decimal digits helper for the string-argument cases of `int()` /
`float()`. -/
def digitsVal (cs : List Char) : Option Nat :=
  if cs.isEmpty then Option.none
  else if cs.all Char.isDigit then
    some (cs.foldl (fun acc c => acc * 10 + (c.toNat - 48)) 0)
  else Option.none

/-- Python `s.strip()` on a character list: whitespace dropped from both
ends. -/
def pyStripChars (cs : List Char) : List Char :=
  ((cs.dropWhile Char.isWhitespace).reverse.dropWhile Char.isWhitespace).reverse

/-- Python `s.strip()`. -/
def pyStrip (s : String) : String :=
  String.mk (pyStripChars s.data)

/-- Python `s[:n]`: the first `n` characters (used for `hex[:8]`). -/
def pyTake (s : String) (n : Nat) : String :=
  String.mk (s.data.take n)

/-- Split an optional leading sign, returning (negative?, rest). -/
def splitSign (cs : List Char) : Bool × List Char :=
  match cs with
  | c :: rest =>
      if c = Char.ofNat 45 then (true, rest)
      else if c = Char.ofNat 43 then (false, rest)
      else (false, cs)
  | [] => (false, [])

/-- Python `int(s)` on a string: surrounding whitespace allowed, optional
sign, decimal digits (models the decimal fragment of the literal grammar). -/
def parseIntStr (s : String) : Option Int :=
  let (neg, cs) := splitSign (pyStripChars s.data)
  match digitsVal cs with
  | some n => some (if neg then -(n : Int) else (n : Int))
  | Option.none => Option.none

/-- Python `float(s)` on a string: surrounding whitespace, optional sign,
decimal digits with an optional fractional part (models the plain decimal
fragment of the float grammar; no claim depends on exponents or inf/nan). -/
def parseFloatStr (s : String) : Option ℚ :=
  let (neg, cs) := splitSign (pyStripChars s.data)
  let (ip, rest) := cs.span (fun c => c != Char.ofNat 46)
  let sig : Option ℚ :=
    match rest with
    | [] => (digitsVal ip).map (fun n => (n : ℚ))
    | _ :: fp =>
        if fp.any (fun c => c = Char.ofNat 46) then Option.none
        else if ip.isEmpty && fp.isEmpty then Option.none
        else if !ip.all Char.isDigit || !fp.all Char.isDigit then Option.none
        else
          some (((digitsVal ip).getD 0 : ℚ) +
            ((digitsVal fp).getD 0 : ℚ) / ((10 : ℚ) ^ fp.length))
  sig.map (fun q => if neg then -q else q)

/-- Truncation toward zero, the behaviour of Python `int()` on a float. -/
def truncRat (q : ℚ) : Int := Int.tdiv q.num (q.den : Int)

/-- Python `int(v)`: ints and bools pass through, floats truncate toward
zero, strings are parsed as integer literals; everything else raises
(modelled as `none`). -/
def pyInt : PyVal → Option Int
  | .int n => some n
  | .bool b => some (if b then 1 else 0)
  | .float q => some (truncRat q)
  | .str s => parseIntStr s
  | _ => Option.none

/-- Python `float(v)`: ints, bools and floats convert, strings are parsed as
decimal literals; everything else raises (modelled as `none`). -/
def pyFloat : PyVal → Option ℚ
  | .int n => some (n : ℚ)
  | .bool b => some (if b then 1 else 0)
  | .float q => some q
  | .str s => parseFloatStr s
  | _ => Option.none

/-- Repr of a float for `str()`.  Python prints the shortest decimal repr;
this model prints `<num>.0` for integral values and a fraction otherwise.
No claim depends on the exact text of a float repr. -/
def floatRepr (q : ℚ) : String :=
  if q.den = 1 then toString q.num ++ ".0"
  else toString q.num ++ "/" ++ toString q.den

mutual
/-- Python `str(v)`.  For lists and dicts a structural repr is produced;
Python would quote strings inside containers, which this model elides — no
claim depends on container reprs. -/
def pyStr : PyVal → String
  | .none => "None"
  | .bool b => if b then "True" else "False"
  | .int n => toString n
  | .float q => floatRepr q
  | .str s => s
  | .list xs => "[" ++ pyStrList xs ++ "]"
  | .dict kvs => "\x7b" ++ pyStrKVs kvs ++ "\x7d"

def pyStrList : List PyVal → String
  | [] => ""
  | [v] => pyStr v
  | v :: rest => pyStr v ++ ", " ++ pyStrList rest

def pyStrKVs : List (String × PyVal) → String
  | [] => ""
  | [(k, v)] => k ++ ": " ++ pyStr v
  | (k, v) :: rest => k ++ ": " ++ pyStr v ++ ", " ++ pyStrKVs rest
end

/-!
## The persisted file

`FileState` abstracts the db file by the observations `ensure_db_exists` and
`load_db` make of it: whether it exists, whether its content strips to the
empty string, and what `json.loads` yields.  `save_db` writes
`json.dumps(data)`, whose parse is `data` again (the json library round-trip
contract), so saving is modelled as moving to `wellFormed data`.
-/

/-- State of the db file: missing, existing with whitespace-only content,
existing with content `json.loads` rejects, or existing with content parsing
to `v`. -/
inductive FileState where
  | absent
  | blank
  | malformed
  | wellFormed (v : PyVal)
deriving Repr

/-- The document `{"products": [], "orders": []}` the store initializes. -/
def defaultDoc : PyVal :=
  .dict [("products", .list []), ("orders", .list [])]

/-- `ensure_db_exists`: write the default document when the file is missing
or its content strips to empty; otherwise leave the file alone. -/
def ensure_db_exists : FileState → FileState
  | .absent => .wellFormed defaultDoc
  | .blank => .wellFormed defaultDoc
  | st => st

/-- One repair statement of `load_db`: `if k not in data or not
isinstance(data[k], list): data[k] = []`. -/
def fixField (kvs : List (String × PyVal)) (k : String) : List (String × PyVal) :=
  match dlookup kvs k with
  | some (.list _) => kvs
  | _ => dictSet kvs k (.list [])

/-- The defensive repair in `load_db`: on a dict, replace a missing or
non-list `products` / `orders` entry by an empty list.  On any non-dict
parsed value the Python code raises a `TypeError` (either at the `in` test
or at the subscript assignment), modelled as an error. -/
def repairDoc : PyVal → Except Unit PyVal
  | .dict kvs => .ok (.dict (fixField (fixField kvs "products") "orders"))
  | _ => .error ()

/-- `load_db`: ensure the file exists, parse it (malformed content raises),
then repair the two collection fields.  Returns the parsed document and the
file state after the ensure step (the repair is not written back). -/
def load_db (st : FileState) : Except Unit PyVal × FileState :=
  let st1 := ensure_db_exists st
  match st1 with
  | .wellFormed v => (repairDoc v, st1)
  | _ => (.error (), st1)

/-- `save_db(data)`: overwrite the file with `json.dumps(data)`. -/
def save_db (data : PyVal) : FileState :=
  .wellFormed data

/-- One step of `index_by_id`: a dict record carrying an `id` key is stored
under its stringified id (overwriting an earlier entry); anything else is
skipped. -/
def indexStep (out : List (String × PyVal)) (it : PyVal) : List (String × PyVal) :=
  match it with
  | .dict kvs => if dmem kvs "id" then dictSet out (pyStr (dget kvs "id")) it else out
  | _ => out

/-- `index_by_id`: map each dict record carrying an `id` key to its
stringified id; later records overwrite earlier ones (last-write-wins). -/
def index_by_id (items : List PyVal) : List (String × PyVal) :=
  items.foldl indexStep []

/-- The id used by `create_product`: `str(body.get("id") or "p-" +
uuid4().hex[:8])` — a truthy supplied id stringified, else the generated
one. -/
def cpPid (b : List (String × PyVal)) (g : String) : String :=
  if pyTruthy (dget b "id") = true then pyStr (dget b "id") else "p-" ++ pyTake g 8

/-- The id used by `create_order`: as `cpPid` with the `o-` marker. -/
def coOid (b : List (String × PyVal)) (g : String) : String :=
  if pyTruthy (dget b "id") = true then pyStr (dget b "id") else "o-" ++ pyTake g 8

/-- `get_body`: the request json when it is a dict, else `{}`. -/
def get_body : PyVal → List (String × PyVal)
  | .dict kvs => kvs
  | _ => []

/-- Outcome of a handler: a success payload with HTTP code, a 400, a 404, or
an uncaught Python exception (Flask turns it into a 500; the lock is
released and nothing is saved). -/
inductive Resp where
  | ok (code : Nat) (body : PyVal)
  | badRequest (msg : String)
  | notFound (msg : String)
  | err
deriving Repr

/-- Field read of a loaded document (`data[k]`); loaded documents are dicts. -/
def docGet (data : PyVal) (k : String) : PyVal :=
  match data with
  | .dict kvs => dget kvs k
  | _ => .none

/-- `data[k]` as a list; after `load_db` the two collection fields are
lists, so the default never fires on a loaded document. -/
def docList (data : PyVal) (k : String) : List PyVal :=
  match docGet data k with
  | .list xs => xs
  | _ => []

/-- `data[k] = v` on a loaded document. -/
def docSet (data : PyVal) (k : String) (v : PyVal) : PyVal :=
  match data with
  | .dict kvs => .dict (dictSet kvs k v)
  | v0 => v0

/-- Field assignment `r[k] = v` on a record (records found via the index are
dicts). -/
def pySetField (r : PyVal) (k : String) (v : PyVal) : PyVal :=
  match r with
  | .dict kvs => .dict (dictSet kvs k v)
  | v0 => v0

/-- `v.get(k)`: dict lookup, raising `AttributeError` on a non-dict. -/
def pyGetE (v : PyVal) (k : String) : Except Unit PyVal :=
  match v with
  | .dict kvs => .ok (dget kvs k)
  | _ => .error ()

/-- `[p for p in ps if str(p.get(key)) != target]`: the filter the delete
handlers run; raises on the first non-dict element. -/
def filterNotStrEq (key target : String) : List PyVal → Except Unit (List PyVal)
  | [] => .ok []
  | p :: rest => do
      let v ← pyGetE p key
      let tail ← filterNotStrEq key target rest
      if pyStr v = target then pure tail else pure (p :: tail)

/-- Scan of the write-back loop `for i, p in enumerate(ps): if
str(p.get("id")) == rid: ...; break` — position of the first match, raising
on a non-dict record encountered before it. -/
def firstLoopIdx (rid : String) : List PyVal → Except Unit (Option Nat)
  | [] => .ok Option.none
  | p :: rest => do
      let v ← pyGetE p "id"
      if pyStr v = rid then pure (some 0)
      else
        let o ← firstLoopIdx rid rest
        pure (o.map (fun i => i + 1))

/-- Does this record appear in `index_by_id` under key `rid`? -/
def recHasId (rid : String) (p : PyVal) : Bool :=
  match p with
  | .dict kvs => dmem kvs "id" && pyStr (dget kvs "id") = rid
  | _ => false

/-- Index of the record `index_by_id(ps)[rid]` aliases: the last dict with an
`id` stringifying to `rid` (last-write-wins index construction). -/
def lastIdxWithId (rid : String) : List PyVal → Option Nat
  | [] => Option.none
  | p :: rest =>
      match lastIdxWithId rid rest with
      | some i => some (i + 1)
      | Option.none => if recHasId rid p then some 0 else Option.none

/-- Shared tail of `update_product` / `update_order`: in CPython the indexed
record aliases the last matching list cell, so the field assignments already
updated that cell in place; the explicit write-back loop then stores the
updated record at the first matching cell (raising on a non-dict record seen
before it).  Finally the whole document is saved. -/
def finishUpdate (collection : String) (data : PyVal) (st1 : FileState)
    (records : List PyVal) (rid : String) (r : PyVal) : Resp × FileState :=
  let ps1 := match lastIdxWithId rid records with
    | some i => records.set i r
    | Option.none => records
  match firstLoopIdx rid ps1 with
  | .error _ => (.err, st1)
  | .ok o =>
      let ps2 := match o with
        | some i => ps1.set i r
        | Option.none => ps1
      (.ok 200 r, save_db (docSet data collection (.list ps2)))

/-!
## Product handlers
-/

/-- `GET /products`. -/
def list_products (st : FileState) : Resp × FileState :=
  match load_db st with
  | (.ok data, st1) => (.ok 200 (docGet data "products"), st1)
  | (.error _, st1) => (.err, st1)

/-- `POST /products`.  `genHex` stands for `uuid.uuid4().hex`, `now` for
`now_iso()`. -/
def create_product (body : PyVal) (genHex now : String) (st : FileState) :
    Resp × FileState :=
  let b := get_body body
  let name := dget b "name"
  let price := dget b "price"
  if !pyTruthy name then (.badRequest "Field \x27name\x27 is required", st)
  else match price with
  | .none => (.badRequest "Field \x27price\x27 is required", st)
  | _ =>
    match pyFloat price with
    | Option.none => (.badRequest "Field \x27price\x27 must be a number", st)
    | some price_val =>
      match load_db st with
      | (.error _, st1) => (.err, st1)
      | (.ok data, st1) =>
        let products := docList data "products"
        let p_index := index_by_id products
        let pid := cpPid b genHex
        if (dlookup p_index pid).isSome then
          (.badRequest "Product id already exists", st1)
        else
          let product : PyVal := .dict [("id", .str pid), ("name", .str (pyStr name)),
            ("price", .float price_val), ("createdAt", .str now)]
          (.ok 201 product,
            save_db (docSet data "products" (.list (products ++ [product]))))

/-- `GET /products/<pid>`. -/
def get_product (pid : String) (st : FileState) : Resp × FileState :=
  match load_db st with
  | (.error _, st1) => (.err, st1)
  | (.ok data, st1) =>
    match dlookup (index_by_id (docList data "products")) pid with
    | Option.none => (.notFound "product not found", st1)
    | some r => (.ok 200 r, st1)

/-- `PUT /products/<pid>`. -/
def update_product (pid : String) (body : PyVal) (st : FileState) :
    Resp × FileState :=
  let b := get_body body
  match load_db st with
  | (.error _, st1) => (.err, st1)
  | (.ok data, st1) =>
    let products := docList data "products"
    let p_index := index_by_id products
    match dlookup p_index pid with
    | Option.none => (.notFound "product not found", st1)
    | some r0 =>
      let r1 := if dmem b "name" then pySetField r0 "name" (.str (pyStr (dget b "name"))) else r0
      if dmem b "price" then
        match pyFloat (dget b "price") with
        | Option.none => (.badRequest "Field \x27price\x27 must be a number", st1)
        | some q =>
            finishUpdate "products" data st1 products pid
              (pySetField r1 "price" (.float q))
      else finishUpdate "products" data st1 products pid r1

/-- Cascade step of `DELETE /products/<pid>` on one order: dict orders whose
`items` entry is a list get items referencing the deleted product dropped;
anything else passes through untouched.  A non-dict item raises
(`AttributeError` at `it.get`). -/
def pruneOrder (pid : String) (o : PyVal) : Except Unit PyVal :=
  match o with
  | .dict kvs =>
      match dget kvs "items" with
      | .list its => do
          let its1 ← filterNotStrEq "productId" pid its
          pure (.dict (dictSet kvs "items" (.list its1)))
      | _ => pure o
  | _ => pure o

/-- Cascade of `DELETE /products/<pid>` over every order. -/
def pruneOrders (pid : String) : List PyVal → Except Unit (List PyVal)
  | [] => .ok []
  | o :: rest => do
      let o1 ← pruneOrder pid o
      let rest1 ← pruneOrders pid rest
      pure (o1 :: rest1)

/-- `DELETE /products/<pid>`. -/
def delete_product (pid : String) (st : FileState) : Resp × FileState :=
  match load_db st with
  | (.error _, st1) => (.err, st1)
  | (.ok data, st1) =>
    let products := docList data "products"
    let orders := docList data "orders"
    match filterNotStrEq "id" pid products with
    | .error _ => (.err, st1)
    | .ok newProducts =>
      if newProducts.length = products.length then
        (.notFound "product not found", st1)
      else
        match pruneOrders pid orders with
        | .error _ => (.err, st1)
        | .ok newOrders =>
          (.ok 200 (.dict [("deleted", .str pid)]),
            save_db (docSet (docSet data "products" (.list newProducts))
              "orders" (.list newOrders)))

/-!
## Order handlers
-/

/-- `GET /orders`. -/
def list_orders (st : FileState) : Resp × FileState :=
  match load_db st with
  | (.ok data, st1) => (.ok 200 (docGet data "orders"), st1)
  | (.error _, st1) => (.err, st1)

/-- The item-validation loop shared verbatim by `create_order` and
`update_order`: each item must be a dict whose stringified, stripped
`productId` is non-empty and present in the product index, and whose `qty`
converts via `int()` to a positive value; the first violation aborts with
the corresponding message, otherwise the normalized items are returned. -/
def validate_items (idx : List (String × PyVal)) :
    List PyVal → Except String (List PyVal)
  | [] => .ok []
  | it :: rest =>
    match it with
    | .dict kvs =>
        let product_id := pyStrip (pyStr (dgetD kvs "productId" (.str "")))
        if product_id = "" then .error "Each item must include productId"
        else if !(dlookup idx product_id).isSome then
          .error ("productId does not exist: " ++ product_id)
        else match pyInt (dget kvs "qty") with
          | Option.none => .error "qty must be an integer"
          | some qv =>
            if qv ≤ 0 then .error "qty must be a positive integer"
            else (validate_items idx rest).map
              (fun l => PyVal.dict [("productId", .str product_id), ("qty", .int qv)] :: l)
    | _ => .error "Each item must be an object with productId and qty"

/-- `POST /orders`.  `genHex` stands for `uuid.uuid4().hex`, `now` for
`now_iso()`. -/
def create_order (body : PyVal) (genHex now : String) (st : FileState) :
    Resp × FileState :=
  let b := get_body body
  let customer := dget b "customer"
  let items := dget b "items"
  let status := dgetD b "status" (.str "NEW")
  if !pyTruthy customer then (.badRequest "Field \x27customer\x27 is required", st)
  else match items with
  | .list its =>
    if its.isEmpty then (.badRequest "Field \x27items\x27 must be a non-empty list", st)
    else match load_db st with
    | (.error _, st1) => (.err, st1)
    | (.ok data, st1) =>
      let products_index := index_by_id (docList data "products")
      let orders := docList data "orders"
      let o_index := index_by_id orders
      match validate_items products_index its with
      | .error m => (.badRequest m, st1)
      | .ok normalized_items =>
        let oid := coOid b genHex
        if (dlookup o_index oid).isSome then
          (.badRequest "Order id already exists", st1)
        else
          let order : PyVal := .dict [("id", .str oid),
            ("customer", .str (pyStr customer)), ("items", .list normalized_items),
            ("status", .str (pyStr status)), ("createdAt", .str now)]
          (.ok 201 order,
            save_db (docSet data "orders" (.list (orders ++ [order]))))
  | _ => (.badRequest "Field \x27items\x27 must be a non-empty list", st)

/-- `GET /orders/<oid>`. -/
def get_order (oid : String) (st : FileState) : Resp × FileState :=
  match load_db st with
  | (.error _, st1) => (.err, st1)
  | (.ok data, st1) =>
    match dlookup (index_by_id (docList data "orders")) oid with
    | Option.none => (.notFound "order not found", st1)
    | some r => (.ok 200 r, st1)

/-- `PUT /orders/<oid>`. -/
def update_order (oid : String) (body : PyVal) (st : FileState) :
    Resp × FileState :=
  let b := get_body body
  match load_db st with
  | (.error _, st1) => (.err, st1)
  | (.ok data, st1) =>
    let orders := docList data "orders"
    let o_index := index_by_id orders
    match dlookup o_index oid with
    | Option.none => (.notFound "order not found", st1)
    | some r0 =>
      let r1 := if dmem b "status" then pySetField r0 "status" (.str (pyStr (dget b "status"))) else r0
      let r2 := if dmem b "customer" then pySetField r1 "customer" (.str (pyStr (dget b "customer"))) else r1
      if dmem b "items" then
        match dget b "items" with
        | .list its =>
          if its.isEmpty then (.badRequest "items must be a non-empty list", st1)
          else match validate_items (index_by_id (docList data "products")) its with
            | .error m => (.badRequest m, st1)
            | .ok new_items =>
                finishUpdate "orders" data st1 orders oid
                  (pySetField r2 "items" (.list new_items))
        | _ => (.badRequest "items must be a non-empty list", st1)
      else finishUpdate "orders" data st1 orders oid r2

/-- `DELETE /orders/<oid>`. -/
def delete_order (oid : String) (st : FileState) : Resp × FileState :=
  match load_db st with
  | (.error _, st1) => (.err, st1)
  | (.ok data, st1) =>
    let orders := docList data "orders"
    match filterNotStrEq "id" oid orders with
    | .error _ => (.err, st1)
    | .ok newOrders =>
      if newOrders.length = orders.length then
        (.notFound "order not found", st1)
      else
        (.ok 200 (.dict [("deleted", .str oid)]),
          save_db (docSet data "orders" (.list newOrders)))

/-!
## Further definitions used by the statements
-/

/-- The value at key `k` when it is a list, else `[]` (used to state claims
about bodies whose `items` entry is known to be a list). -/
def pyListOf (v : PyVal) : List PyVal :=
  match v with
  | .list xs => xs
  | _ => []

/-- The record `index_by_id(ps)[rid]` aliases: the last element of `ps` that
is a dict carrying an `id` stringifying to `rid`. -/
def lastMatchRec (rid : String) : List PyVal → Option PyVal
  | [] => Option.none
  | p :: rest =>
      match lastMatchRec rid rest with
      | some r => some r
      | Option.none => if recHasId rid p then some p else Option.none

/-- The four read-only endpoints. -/
inductive GetOp where
  | listProducts
  | getProduct (pid : String)
  | listOrders
  | getOrder (oid : String)

/-- Dispatch one GET endpoint. -/
def runGet : GetOp → FileState → Resp × FileState
  | .listProducts, st => list_products st
  | .getProduct pid, st => get_product pid st
  | .listOrders, st => list_orders st
  | .getOrder oid, st => get_order oid st

/-- File state after a sequence of GET requests. -/
def runGets (ops : List GetOp) (st : FileState) : FileState :=
  ops.foldl (fun s op => (runGet op s).2) st

/-- The item-acceptance rule as the specification words it (claim C3): an
item is an object whose `productId`, stringified and stripped, is non-empty
and names an existing product, and whose `qty` converts to an integer
strictly greater than zero.  Stated separately from `validate_items` so the
loop can be proved to accept exactly these items. -/
def specItemOk (idx : List (String × PyVal)) (it : PyVal) : Bool :=
  match it with
  | .dict kvs =>
      pyStrip (pyStr (dgetD kvs "productId" (.str ""))) != "" &&
      (dlookup idx (pyStrip (pyStr (dgetD kvs "productId" (.str ""))))).isSome &&
      (match pyInt (dget kvs "qty") with
       | some n => decide (0 < n)
       | Option.none => false)
  | _ => false

/-- A concrete stored product used to evaluate the theorems. -/
def sampleProduct : PyVal :=
  .dict [("id", .str "p1"), ("name", .str "Pen"), ("price", .int 3),
    ("createdAt", .str "T0")]

/-- A concrete stored order item referencing `sampleProduct`. -/
def sampleOrderItem : PyVal := .dict [("productId", .str "p1"), ("qty", .int 2)]

/-- A concrete stored order used to evaluate the theorems. -/
def sampleOrder : PyVal :=
  .dict [("id", .str "o1"), ("customer", .str "Fatima"),
    ("items", .list [sampleOrderItem]), ("status", .str "NEW"),
    ("createdAt", .str "T1")]

/-- A concrete persisted document holding one product and one order. -/
def sampleDoc : PyVal :=
  .dict [("products", .list [sampleProduct]), ("orders", .list [sampleOrder])]

/-- The file state persisting `sampleDoc`. -/
def sampleSt : FileState := .wellFormed sampleDoc

/-- A create/update body whose single item references the stored product. -/
def goodOrderBody : PyVal :=
  .dict [("customer", .str "A"),
    ("items", .list [.dict [("productId", .str "p1"), ("qty", .int 1)]])]

/-- A create/update body whose single item references a product id that does
not exist. -/
def ghostOrderBody : PyVal :=
  .dict [("customer", .str "A"),
    ("items", .list [.dict [("productId", .str "ghost"), ("qty", .int 1)]])]

/-!
## Supporting lemmas
-/

theorem dlookup_dictSet_self (kvs : List (String × PyVal)) (k : String) (v : PyVal) :
    dlookup (dictSet kvs k v) k = some v := by
  induction kvs with
  | nil => simp [dictSet, dlookup]
  | cons kv rest ih =>
      obtain ⟨k1, v1⟩ := kv
      by_cases h : k1 = k <;> simp [dictSet, dlookup, h, ih]

theorem dlookup_dictSet_ne (kvs : List (String × PyVal)) {k1 k : String} (v : PyVal)
    (h : k1 ≠ k) : dlookup (dictSet kvs k v) k1 = dlookup kvs k1 := by
  induction kvs with
  | nil => simp [dictSet, dlookup, Ne.symm h]
  | cons kv rest ih =>
      obtain ⟨k2, v2⟩ := kv
      by_cases h2 : k2 = k
      · subst h2
        simp [dictSet, dlookup, Ne.symm h]
      · by_cases h3 : k2 = k1 <;> simp [dictSet, dlookup, h, h2, h3, ih]

theorem dget_dictSet_self (kvs : List (String × PyVal)) (k : String) (v : PyVal) :
    dget (dictSet kvs k v) k = v := by
  simp [dget, dlookup_dictSet_self]

theorem dget_dictSet_ne (kvs : List (String × PyVal)) {k1 k : String} (v : PyVal)
    (h : k1 ≠ k) : dget (dictSet kvs k v) k1 = dget kvs k1 := by
  simp [dget, dlookup_dictSet_ne _ _ h]

theorem ensure_idem (st : FileState) :
    ensure_db_exists (ensure_db_exists st) = ensure_db_exists st := by
  cases st <;> rfl

theorem load_db_snd (st : FileState) : (load_db st).2 = ensure_db_exists st := by
  cases st <;> rfl

theorem load_db_ensure (st : FileState) :
    load_db (ensure_db_exists st) = load_db st := by
  cases st <;> rfl

theorem fixField_lookup_self (kvs : List (String × PyVal)) (k : String) :
    ∃ l, dlookup (fixField kvs k) k = some (.list l) := by
  unfold fixField
  split
  · next hl => exact ⟨_, hl⟩
  · exact ⟨[], dlookup_dictSet_self _ _ _⟩

theorem fixField_lookup_ne (kvs : List (String × PyVal)) {k1 k : String}
    (h : k1 ≠ k) : dlookup (fixField kvs k) k1 = dlookup kvs k1 := by
  unfold fixField
  split
  · rfl
  · exact dlookup_dictSet_ne _ _ h

theorem fixField_keep {kvs : List (String × PyVal)} {k : String} {l : List PyVal}
    (h : dlookup kvs k = some (.list l)) : fixField kvs k = kvs := by
  unfold fixField
  rw [h]

theorem fixField_set {kvs : List (String × PyVal)} {k : String}
    (h : ∀ l, dlookup kvs k ≠ some (.list l)) :
    fixField kvs k = dictSet kvs k (.list []) := by
  unfold fixField
  split
  · next hl => exact absurd hl (h _)
  · rfl

theorem repairDoc_ok_dict {v d : PyVal} (h : repairDoc v = .ok d) :
    ∃ kvs, d = .dict kvs := by
  cases v <;> simp [repairDoc] at h <;> exact ⟨_, h.symm⟩

theorem load_db_ok_dict {st : FileState} {data : PyVal}
    (h : (load_db st).1 = .ok data) : ∃ kvs, data = .dict kvs := by
  cases st with
  | absent => simp [load_db, ensure_db_exists, repairDoc, defaultDoc, dlookup] at h
              exact ⟨_, h.symm⟩
  | blank => simp [load_db, ensure_db_exists, repairDoc, defaultDoc, dlookup] at h
             exact ⟨_, h.symm⟩
  | malformed => simp [load_db, ensure_db_exists] at h
  | wellFormed v => simp [load_db, ensure_db_exists] at h
                    exact repairDoc_ok_dict h

theorem load_db_fields {st : FileState} {data : PyVal}
    (h : (load_db st).1 = .ok data) :
    ∃ kvs, data = .dict kvs ∧ (∃ ps, dlookup kvs "products" = some (.list ps)) ∧
      ∃ os, dlookup kvs "orders" = some (.list os) := by
  have hrep : ∀ v, repairDoc v = .ok data →
      ∃ kvs, data = .dict kvs ∧
        (∃ ps, dlookup kvs "products" = some (.list ps)) ∧
        ∃ os, dlookup kvs "orders" = some (.list os) := by
    intro v hv
    cases v <;> simp [repairDoc] at hv
    refine ⟨_, hv.symm, ?_, ?_⟩
    · have hne : "products" ≠ "orders" := by decide
      rw [fixField_lookup_ne _ hne]
      exact fixField_lookup_self _ _
    · exact fixField_lookup_self _ _
  cases st with
  | absent =>
      simp [load_db, ensure_db_exists] at h
      exact hrep _ h
  | blank =>
      simp [load_db, ensure_db_exists] at h
      exact hrep _ h
  | malformed => simp [load_db, ensure_db_exists] at h
  | wellFormed v =>
      simp [load_db, ensure_db_exists] at h
      exact hrep _ h

theorem docGet_dict (kvs : List (String × PyVal)) (k : String) :
    docGet (.dict kvs) k = dget kvs k := rfl

theorem docList_of_lookup {data : PyVal} {kvs : List (String × PyVal)}
    {k : String} {l : List PyVal} (hd : data = .dict kvs)
    (h : dlookup kvs k = some (.list l)) : docList data k = l := by
  subst hd
  simp [docList, docGet, dget, h]

theorem runGet_snd (op : GetOp) (st : FileState) :
    (runGet op st).2 = ensure_db_exists st := by
  have h2 := load_db_snd st
  cases op <;>
    simp only [runGet, list_products, get_product, list_orders, get_order] <;>
    (repeat' split) <;>
    simp_all

theorem runGets_fix (ops : List GetOp) {st : FileState}
    (h : ensure_db_exists st = st) : runGets ops st = st := by
  induction ops with
  | nil => rfl
  | cons op rest ih =>
      show runGets rest (runGet op st).2 = st
      rw [runGet_snd, h, ih]

theorem filterNotStrEq_ok_mem {key t : String} :
    ∀ {ps l : List PyVal}, filterNotStrEq key t ps = .ok l →
    ∀ p ∈ l, ∃ kvs, p = PyVal.dict kvs ∧ pyStr (dget kvs key) ≠ t := by
  intro ps
  induction ps with
  | nil =>
      intro l h p hp
      simp [filterNotStrEq] at h
      subst h
      simp at hp
  | cons p rest ih =>
      intro l h q hq
      unfold filterNotStrEq at h
      cases p with
      | dict kvs =>
          simp only [pyGetE, Except.bind] at h
          cases hrec : filterNotStrEq key t rest with
          | error e => rw [hrec] at h; simp [Bind.bind, Except.bind] at h
          | ok tail =>
              rw [hrec] at h
              simp only [Bind.bind, Except.bind] at h
              split at h
              · simp only [pure, Except.pure, Except.ok.injEq] at h
                subst h
                exact ih hrec q hq
              · next hne =>
                simp only [pure, Except.pure, Except.ok.injEq] at h
                subst h
                rcases List.mem_cons.mp hq with hq1 | hq2
                · exact ⟨kvs, hq1, hne⟩
                · exact ih hrec q hq2
      | none => simp [pyGetE, Bind.bind, Except.bind] at h
      | bool b => simp [pyGetE, Bind.bind, Except.bind] at h
      | int n => simp [pyGetE, Bind.bind, Except.bind] at h
      | float q2 => simp [pyGetE, Bind.bind, Except.bind] at h
      | str s => simp [pyGetE, Bind.bind, Except.bind] at h
      | list xs => simp [pyGetE, Bind.bind, Except.bind] at h

theorem pruneOrder_ok_mem {pid : String} {o o1 : PyVal}
    (h : pruneOrder pid o = .ok o1) :
    ∀ kvs its, o1 = PyVal.dict kvs → dget kvs "items" = .list its →
    ∀ it ∈ its, ∃ ikvs, it = PyVal.dict ikvs ∧ pyStr (dget ikvs "productId") ≠ pid := by
  intro kvs its ho hits it hit
  unfold pruneOrder at h
  cases o with
  | dict okvs =>
      dsimp only at h
      split at h
      · next its0 hitems =>
          cases hfil : filterNotStrEq "productId" pid its0 with
          | error e => rw [hfil] at h; simp [Bind.bind, Except.bind] at h
          | ok its1 =>
              rw [hfil] at h
              simp only [Bind.bind, Except.bind, pure, Except.pure, Except.ok.injEq] at h
              rw [ho] at h
              cases h
              rw [dget_dictSet_self] at hits
              cases hits
              exact filterNotStrEq_ok_mem hfil it hit
      · next hnl =>
          simp only [pure, Except.pure, Except.ok.injEq] at h
          rw [ho] at h
          cases h
          exact absurd hits (hnl its)
  | none =>
      dsimp only at h
      simp only [pure, Except.pure, Except.ok.injEq] at h
      rw [ho] at h
      exact PyVal.noConfusion h
  | bool b =>
      dsimp only at h
      simp only [pure, Except.pure, Except.ok.injEq] at h
      rw [ho] at h
      exact PyVal.noConfusion h
  | int n =>
      dsimp only at h
      simp only [pure, Except.pure, Except.ok.injEq] at h
      rw [ho] at h
      exact PyVal.noConfusion h
  | float q =>
      dsimp only at h
      simp only [pure, Except.pure, Except.ok.injEq] at h
      rw [ho] at h
      exact PyVal.noConfusion h
  | str s =>
      dsimp only at h
      simp only [pure, Except.pure, Except.ok.injEq] at h
      rw [ho] at h
      exact PyVal.noConfusion h
  | list xs =>
      dsimp only at h
      simp only [pure, Except.pure, Except.ok.injEq] at h
      rw [ho] at h
      exact PyVal.noConfusion h

theorem pruneOrders_ok_mem {pid : String} :
    ∀ {os l : List PyVal}, pruneOrders pid os = .ok l →
    ∀ o ∈ l, ∀ kvs its, o = PyVal.dict kvs → dget kvs "items" = .list its →
    ∀ it ∈ its, ∃ ikvs, it = PyVal.dict ikvs ∧ pyStr (dget ikvs "productId") ≠ pid := by
  intro os
  induction os with
  | nil =>
      intro l h o ho
      simp [pruneOrders] at h
      subst h
      simp at ho
  | cons o0 rest ih =>
      intro l h o ho
      unfold pruneOrders at h
      cases h0 : pruneOrder pid o0 with
      | error e => rw [h0] at h; simp [Bind.bind, Except.bind] at h
      | ok o1 =>
          rw [h0] at h
          cases hrec : pruneOrders pid rest with
          | error e => rw [hrec] at h; simp [Bind.bind, Except.bind] at h
          | ok tail =>
              rw [hrec] at h
              simp only [Bind.bind, Except.bind, pure, Except.pure, Except.ok.injEq] at h
              subst h
              rcases List.mem_cons.mp ho with h1 | h2
              · subst h1
                exact pruneOrder_ok_mem h0
              · exact ih hrec o h2

theorem create_product_badRequest_state {body : PyVal} {g n : String} {st : FileState}
    {m : String} {st2 : FileState}
    (h : create_product body g n st = (.badRequest m, st2)) :
    (st2 = st ∨ st2 = ensure_db_exists st) ∧ (load_db st2).1 = (load_db st).1 := by
  have hsnd := load_db_snd st
  have hle := load_db_ensure st
  unfold create_product at h
  dsimp only at h
  repeat' split at h
  all_goals simp_all

theorem update_product_badRequest_state {pid : String} {body : PyVal} {st : FileState}
    {m : String} {st2 : FileState}
    (h : update_product pid body st = (.badRequest m, st2)) :
    (st2 = st ∨ st2 = ensure_db_exists st) ∧ (load_db st2).1 = (load_db st).1 := by
  have hsnd := load_db_snd st
  have hle := load_db_ensure st
  unfold update_product finishUpdate at h
  dsimp only at h
  repeat' split at h
  all_goals simp_all

theorem create_order_badRequest_state {body : PyVal} {g n : String} {st : FileState}
    {m : String} {st2 : FileState}
    (h : create_order body g n st = (.badRequest m, st2)) :
    (st2 = st ∨ st2 = ensure_db_exists st) ∧ (load_db st2).1 = (load_db st).1 := by
  have hsnd := load_db_snd st
  have hle := load_db_ensure st
  unfold create_order at h
  dsimp only at h
  repeat' split at h
  all_goals simp_all

theorem update_order_badRequest_state {oid : String} {body : PyVal} {st : FileState}
    {m : String} {st2 : FileState}
    (h : update_order oid body st = (.badRequest m, st2)) :
    (st2 = st ∨ st2 = ensure_db_exists st) ∧ (load_db st2).1 = (load_db st).1 := by
  have hsnd := load_db_snd st
  have hle := load_db_ensure st
  unfold update_order finishUpdate at h
  dsimp only at h
  repeat' split at h
  all_goals simp_all

theorem validate_items_ok_iff {idx : List (String × PyVal)} :
    ∀ {its : List PyVal},
    (∃ l, validate_items idx its = .ok l) ↔ ∀ it ∈ its, specItemOk idx it = true := by
  intro its
  induction its with
  | nil => simp [validate_items]
  | cons it rest ih =>
      constructor
      · rintro ⟨l, h⟩ q hq
        unfold validate_items at h
        rcases List.mem_cons.mp hq with rfl | hq2
        · cases q with
          | dict kvs =>
              dsimp only at h
              split at h
              · exact absurd h (by simp)
              next hne =>
                split at h
                · exact absurd h (by simp)
                next hsome =>
                  split at h
                  · exact absurd h (by simp)
                  next n hn =>
                    split at h
                    · exact absurd h (by simp)
                    next hle =>
                      simp only [specItemOk, hn, Bool.and_eq_true, bne_iff_ne,
                        decide_eq_true_eq]
                      refine ⟨⟨hne, ?_⟩, by omega⟩
                      rw [Option.isSome_iff_ne_none]
                      simpa using hsome
          | none => simp [validate_items] at h
          | bool b => simp [validate_items] at h
          | int n => simp [validate_items] at h
          | float q2 => simp [validate_items] at h
          | str s => simp [validate_items] at h
          | list xs => simp [validate_items] at h
        · cases it with
          | dict kvs =>
              dsimp only at h
              split at h
              · exact absurd h (by simp)
              · split at h
                · exact absurd h (by simp)
                · split at h
                  · exact absurd h (by simp)
                  · next n hn =>
                      split at h
                      · exact absurd h (by simp)
                      · cases hrec : validate_items idx rest with
                        | error e => rw [hrec] at h; simp [Except.map] at h
                        | ok l2 =>
                            exact (ih.mp ⟨l2, hrec⟩) q hq2
          | none => simp [validate_items] at h
          | bool b => simp [validate_items] at h
          | int n => simp [validate_items] at h
          | float q2 => simp [validate_items] at h
          | str s => simp [validate_items] at h
          | list xs => simp [validate_items] at h
      · intro hall
        obtain ⟨l2, hl2⟩ := ih.mpr (fun q hq => hall q (List.mem_cons_of_mem _ hq))
        have hit := hall it (List.mem_cons_self it rest)
        cases it with
        | dict kvs =>
            simp only [specItemOk, Bool.and_eq_true, bne_iff_ne] at hit
            obtain ⟨⟨hne, hsome⟩, hqty⟩ := hit
            revert hqty
            cases hn : pyInt (dget kvs "qty") with
            | none => intro hqty; exact absurd hqty (by simp)
            | some n =>
                intro hqty
                have hpos : 0 < n := by simpa using hqty
                have hnle : ¬ (n ≤ 0) := by omega
                have hv : validate_items idx (PyVal.dict kvs :: rest) =
                    Except.ok (PyVal.dict
                      [("productId", PyVal.str (pyStrip (pyStr (dgetD kvs "productId" (PyVal.str ""))))),
                       ("qty", PyVal.int n)] :: l2) := by
                  simp [validate_items, hne, hsome, hn, hnle, hl2, Except.map]
                exact ⟨_, hv⟩
        | none => exact absurd hit (by simp [specItemOk])
        | bool b => exact absurd hit (by simp [specItemOk])
        | int n => exact absurd hit (by simp [specItemOk])
        | float q2 => exact absurd hit (by simp [specItemOk])
        | str s => exact absurd hit (by simp [specItemOk])
        | list xs => exact absurd hit (by simp [specItemOk])

theorem create_order_valid_of_not400 {body : PyVal} {g n : String} {st : FileState}
    {r : Resp} {st2 : FileState} {data : PyVal}
    (h : create_order body g n st = (r, st2))
    (hload : (load_db st).1 = Except.ok data)
    (hnb : ∀ m, r ≠ Resp.badRequest m) :
    ∀ it ∈ pyListOf (dget (get_body body) "items"),
      specItemOk (index_by_id (docList data "products")) it = true := by
  unfold create_order at h
  dsimp only at h
  split at h
  · exact absurd (congrArg Prod.fst h).symm (hnb _)
  · split at h
    · rename_i xs hitems
      split at h
      · exact absurd (congrArg Prod.fst h).symm (hnb _)
      · split at h
        · rename_i heq
          rw [heq] at hload
          exact absurd hload (by simp)
        · rename_i data0 st1 heq
          have hdata : data0 = data := by
            rw [heq] at hload
            simpa using hload
          subst hdata
          split at h
          · exact absurd (congrArg Prod.fst h).symm (hnb _)
          · rename_i normalized hval
            intro it hit
            rw [hitems] at hit
            simp only [pyListOf] at hit
            exact validate_items_ok_iff.mp ⟨_, hval⟩ it hit
    · exact absurd (congrArg Prod.fst h).symm (hnb _)

theorem update_order_valid_of_not400 {oid : String} {body : PyVal} {st : FileState}
    {r : Resp} {st2 : FileState} {data : PyVal}
    (h : update_order oid body st = (r, st2))
    (hload : (load_db st).1 = Except.ok data)
    (hnb : ∀ m, r ≠ Resp.badRequest m)
    (hnf : ∀ m, r ≠ Resp.notFound m) :
    dmem (get_body body) "items" = true →
    ∀ it ∈ pyListOf (dget (get_body body) "items"),
      specItemOk (index_by_id (docList data "products")) it = true := by
  intro hmem
  unfold update_order at h
  dsimp only at h
  split at h
  · rename_i heq
    rw [heq] at hload
    exact absurd hload (by simp)
  · rename_i data0 st1 heq
    have hdata : data0 = data := by
      rw [heq] at hload
      simpa using hload
    subst hdata
    split at h
    · exact absurd (congrArg Prod.fst h).symm (hnf _)
    · rename_i r0 hlook
      split at h
      · split at h
        · rename_i xs hitems
          split at h
          · exact absurd (congrArg Prod.fst h).symm (hnb _)
          · split at h
            · exact absurd (congrArg Prod.fst h).symm (hnb _)
            · rename_i normalized hval
              intro it hit
              rw [hitems] at hit
              simp only [pyListOf] at hit
              exact validate_items_ok_iff.mp ⟨_, hval⟩ it hit
        · exact absurd (congrArg Prod.fst h).symm (hnb _)
      · rename_i hnmem
        exact absurd hmem hnmem

theorem update_order_notFound_lookup {oid : String} {body : PyVal} {st : FileState}
    {m : String} {st2 : FileState} {data : PyVal}
    (h : update_order oid body st = (.notFound m, st2))
    (hload : (load_db st).1 = Except.ok data) :
    dlookup (index_by_id (docList data "orders")) oid = Option.none := by
  unfold update_order finishUpdate at h
  dsimp only at h
  split at h
  · rename_i heq
    rw [heq] at hload
    exact absurd hload (by simp)
  · rename_i data0 st1 heq
    have hdata : data0 = data := by
      rw [heq] at hload
      simpa using hload
    subst hdata
    split at h
    · rename_i hlook
      exact hlook
    · split at h
      · split at h
        · split at h
          · simp at h
          · split at h
            · simp at h
            · split at h
              · simp at h
              · simp at h
        · simp at h
      · split at h
        · simp at h
        · simp at h

theorem dlookup_index_foldl (rid : String) :
    ∀ (ps : List PyVal) (acc : List (String × PyVal)),
    dlookup (ps.foldl indexStep acc) rid =
      (match lastMatchRec rid ps with
       | some r => some r
       | Option.none => dlookup acc rid) := by
  intro ps
  induction ps with
  | nil => intro acc; simp [lastMatchRec]
  | cons p rest ih =>
      intro acc
      show dlookup (rest.foldl indexStep (indexStep acc p)) rid = _
      rw [ih]
      cases hrec : lastMatchRec rid rest with
      | some r => simp [lastMatchRec, hrec]
      | none =>
          simp only [lastMatchRec, hrec]
          cases p with
          | dict kvs =>
              simp only [indexStep, recHasId]
              by_cases hid : dmem kvs "id"
              · rw [if_pos hid]
                by_cases hk : pyStr (dget kvs "id") = rid
                · simp only [hid, hk]
                  simp [dlookup_dictSet_self]
                · simp [hid, hk, dlookup_dictSet_ne _ _ (Ne.symm hk)]
              · rw [if_neg hid]
                simp [hid]
          | none => simp [indexStep, recHasId]
          | bool b => simp [indexStep, recHasId]
          | int n => simp [indexStep, recHasId]
          | float q => simp [indexStep, recHasId]
          | str s => simp [indexStep, recHasId]
          | list xs => simp [indexStep, recHasId]

theorem dlookup_index_by_id (ps : List PyVal) (rid : String) :
    dlookup (index_by_id ps) rid = lastMatchRec rid ps := by
  unfold index_by_id
  rw [dlookup_index_foldl]
  cases lastMatchRec rid ps <;> simp [dlookup]

theorem lastMatchRec_spec {rid : String} :
    ∀ {ps : List PyVal} {r : PyVal}, lastMatchRec rid ps = some r →
    ∃ kvs, r = PyVal.dict kvs ∧ dmem kvs "id" = true ∧
      pyStr (dget kvs "id") = rid ∧ r ∈ ps := by
  intro ps
  induction ps with
  | nil => intro r h; simp [lastMatchRec] at h
  | cons p rest ih =>
      intro r h
      unfold lastMatchRec at h
      cases hrec : lastMatchRec rid rest with
      | some r2 =>
          rw [hrec] at h
          cases h
          obtain ⟨kvs, h1, h2, h3, h4⟩ := ih hrec
          exact ⟨kvs, h1, h2, h3, List.mem_cons_of_mem _ h4⟩
      | none =>
          rw [hrec] at h
          dsimp only at h
          split at h
          · next hhas =>
              cases h
              cases p with
              | dict kvs =>
                  simp only [recHasId, Bool.and_eq_true, decide_eq_true_eq] at hhas
                  exact ⟨kvs, rfl, hhas.1, hhas.2, List.mem_cons_self _ _⟩
              | none => simp [recHasId] at hhas
              | bool b => simp [recHasId] at hhas
              | int n => simp [recHasId] at hhas
              | float q => simp [recHasId] at hhas
              | str s => simp [recHasId] at hhas
              | list xs => simp [recHasId] at hhas
          · exact absurd h (by simp)

theorem lastMatchRec_append_single (rid : String) (d : PyVal) :
    ∀ (xs : List PyVal), lastMatchRec rid (xs ++ [d]) =
      if recHasId rid d then some d else lastMatchRec rid xs := by
  intro xs
  induction xs with
  | nil => simp [lastMatchRec]
  | cons p rest ih =>
      show lastMatchRec rid (p :: (rest ++ [d])) = _
      unfold lastMatchRec
      rw [ih]
      by_cases hd : recHasId rid d
      · simp [hd]
      · simp [hd, lastMatchRec]

theorem str_append_ne_empty (a b : String) (ha : 0 < a.length) : a ++ b ≠ "" := by
  intro he
  have h0 : (a ++ b).length = 0 := by rw [he]; rfl
  rw [String.length_append] at h0
  omega

theorem str_length_pos_of_ne_empty {s : String} (h : s ≠ "") : 0 < s.length := by
  cases s with
  | mk d =>
      cases d with
      | nil => exact absurd rfl h
      | cons c cs =>
          show 0 < (c :: cs).length
          simp

theorem toDigitsCore_len_ge (b : Nat) : ∀ (f n : Nat) (l : List Char),
    l.length ≤ (Nat.toDigitsCore b f n l).length := by
  intro f
  induction f with
  | zero => intro n l; simp [Nat.toDigitsCore]
  | succ f ih =>
      intro n l
      unfold Nat.toDigitsCore
      dsimp only
      split
      · simp
      · exact le_trans (by simp) (ih (n / b) (Nat.digitChar (n % b) :: l))

theorem nat_repr_ne_empty (n : Nat) : Nat.repr n ≠ "" := by
  have h : 1 ≤ (Nat.toDigits 10 n).length := by
    unfold Nat.toDigits Nat.toDigitsCore
    dsimp only
    split
    · simp
    · exact le_trans (by simp) (toDigitsCore_len_ge 10 _ _ _)
  have h3 : (Nat.repr n).length = (Nat.toDigits 10 n).length := rfl
  intro he
  rw [he] at h3
  have h4 : ("" : String).length = 0 := rfl
  omega

theorem int_toString_ne_empty (n : Int) : toString n ≠ "" := by
  show Int.repr n ≠ ""
  cases n with
  | ofNat m =>
      have hr : Int.repr (Int.ofNat m) = Nat.repr m := rfl
      rw [hr]
      exact nat_repr_ne_empty m
  | negSucc m =>
      have hr : Int.repr (Int.negSucc m) = "-" ++ Nat.repr (m + 1) := rfl
      rw [hr]
      intro he
      have h1 : ("-" ++ Nat.repr (m + 1)).length = 0 := by rw [he]; rfl
      rw [String.length_append] at h1
      have h2 : ("-" : String).length = 1 := rfl
      omega

theorem pyStr_truthy_ne_empty : ∀ {v : PyVal}, pyTruthy v = true → pyStr v ≠ "" := by
  intro v h
  cases v with
  | none => simp [pyTruthy] at h
  | bool b =>
      cases b with
      | false => simp [pyTruthy] at h
      | true => show "True" ≠ ""; intro he; exact absurd (congrArg String.length he) (by decide)
  | int n => exact int_toString_ne_empty n
  | float q =>
      show floatRepr q ≠ ""
      unfold floatRepr
      split
      · exact str_append_ne_empty _ _ (str_length_pos_of_ne_empty (int_toString_ne_empty q.num))
      · rw [String.append_assoc]
        exact str_append_ne_empty _ _ (str_length_pos_of_ne_empty (int_toString_ne_empty q.num))
  | str s => simpa [pyTruthy] using h
  | list xs =>
      show ("[" ++ pyStrList xs ++ "]") ≠ ""
      rw [String.append_assoc]
      exact str_append_ne_empty _ _ (by decide)
  | dict kvs =>
      show ("\x7b" ++ pyStrKVs kvs ++ "\x7d") ≠ ""
      rw [String.append_assoc]
      exact str_append_ne_empty _ _ (by decide)

theorem create_product_ok_shape {body : PyVal} {g n : String} {st : FileState}
    {c : Nat} {rec : PyVal} {st2 : FileState}
    (h : create_product body g n st = (Resp.ok c rec, st2)) :
    ∃ data st1 q,
      load_db st = (Except.ok data, st1) ∧ c = 201 ∧
      pyFloat (dget (get_body body) "price") = some q ∧
      rec = PyVal.dict [("id", .str (cpPid (get_body body) g)),
        ("name", .str (pyStr (dget (get_body body) "name"))),
        ("price", .float q), ("createdAt", .str n)] ∧
      (dlookup (index_by_id (docList data "products"))
        (cpPid (get_body body) g)).isSome = false ∧
      st2 = save_db (docSet data "products"
        (.list (docList data "products" ++ [rec]))) := by
  unfold create_product at h
  dsimp only at h
  split at h
  · exact absurd h (by simp)
  · split at h
    · exact absurd h (by simp)
    · split at h
      · exact absurd h (by simp)
      · rename_i q hq
        split at h
        · exact absurd h (by simp)
        · rename_i data st1 heq
          split at h
          · exact absurd h (by simp)
          · rename_i hfresh
            obtain ⟨h1, h2⟩ := Prod.mk.injEq .. |>.mp h
            obtain ⟨hc, hrec⟩ := Resp.ok.injEq .. |>.mp h1
            exact ⟨data, st1, q, heq, hc.symm, hq, hrec.symm, by simpa using hfresh,
              by rw [← h2, ← hrec]⟩

theorem create_order_ok_shape {body : PyVal} {g n : String} {st : FileState}
    {c : Nat} {rec : PyVal} {st2 : FileState}
    (h : create_order body g n st = (Resp.ok c rec, st2)) :
    ∃ data st1 its normalized,
      load_db st = (Except.ok data, st1) ∧ c = 201 ∧
      dget (get_body body) "items" = .list its ∧
      validate_items (index_by_id (docList data "products")) its =
        .ok normalized ∧
      rec = PyVal.dict [("id", .str (coOid (get_body body) g)),
        ("customer", .str (pyStr (dget (get_body body) "customer"))),
        ("items", .list normalized),
        ("status", .str (pyStr (dgetD (get_body body) "status" (.str "NEW")))),
        ("createdAt", .str n)] ∧
      (dlookup (index_by_id (docList data "orders"))
        (coOid (get_body body) g)).isSome = false ∧
      st2 = save_db (docSet data "orders"
        (.list (docList data "orders" ++ [rec]))) := by
  unfold create_order at h
  dsimp only at h
  split at h
  · exact absurd h (by simp)
  · split at h
    · rename_i its hitems
      split at h
      · exact absurd h (by simp)
      · split at h
        · exact absurd h (by simp)
        · rename_i data st1 heq
          split at h
          · exact absurd h (by simp)
          · rename_i normalized hval
            split at h
            · exact absurd h (by simp)
            · rename_i hfresh
              obtain ⟨h1, h2⟩ := Prod.mk.injEq .. |>.mp h
              obtain ⟨hc, hrec⟩ := Resp.ok.injEq .. |>.mp h1
              exact ⟨data, st1, its, normalized, heq, hc.symm, hitems, hval,
                hrec.symm, by simpa using hfresh, by rw [← h2, ← hrec]⟩
    · exact absurd h (by simp)

theorem validate_items_error_ne {idx : List (String × PyVal)} :
    ∀ {its : List PyVal} {m : String},
    validate_items idx its = .error m → m ≠ "Order id already exists" := by
  intro its
  induction its with
  | nil => intro m h; simp [validate_items] at h
  | cons it rest ih =>
      intro m h
      unfold validate_items at h
      cases it with
      | dict kvs =>
          dsimp only at h
          split at h
          · cases h
            decide
          · split at h
            · cases h
              intro he
              have h1 := congrArg String.length he
              rw [String.length_append] at h1
              have h2 : ("productId does not exist: " : String).length = 26 := by decide
              have h3 : ("Order id already exists" : String).length = 23 := by decide
              omega
            · split at h
              · cases h
                decide
              · split at h
                · cases h
                  decide
                · cases hrec : validate_items idx rest with
                  | error e =>
                      rw [hrec] at h
                      simp only [Except.map] at h
                      cases h
                      exact ih hrec
                  | ok l2 =>
                      rw [hrec] at h
                      simp [Except.map] at h
      | none => cases h; decide
      | bool b => cases h; decide
      | int n => cases h; decide
      | float q => cases h; decide
      | str s => cases h; decide
      | list xs => cases h; decide

theorem repairDoc_noop {kvs : List (String × PyVal)}
    (hp : ∃ l, dlookup kvs "products" = some (.list l))
    (ho : ∃ l, dlookup kvs "orders" = some (.list l)) :
    repairDoc (.dict kvs) = .ok (.dict kvs) := by
  obtain ⟨lp, hp⟩ := hp
  obtain ⟨lo, ho⟩ := ho
  unfold repairDoc
  dsimp only
  rw [fixField_keep hp, fixField_keep ho]

theorem create_product_not_notFound {body : PyVal} {g n : String} {st : FileState}
    {m : String} {st2 : FileState}
    (h : create_product body g n st = (.notFound m, st2)) : False := by
  unfold create_product at h
  dsimp only at h
  repeat' split at h
  all_goals simp_all

theorem create_product_err_load {body : PyVal} {g n : String} {st : FileState}
    {st2 : FileState} {data : PyVal}
    (h : create_product body g n st = (.err, st2))
    (hload : (load_db st).1 = Except.ok data) : False := by
  unfold create_product at h
  dsimp only at h
  repeat' split at h
  all_goals simp_all

theorem create_order_not_notFound {body : PyVal} {g n : String} {st : FileState}
    {m : String} {st2 : FileState}
    (h : create_order body g n st = (.notFound m, st2)) : False := by
  unfold create_order at h
  dsimp only at h
  repeat' split at h
  all_goals simp_all

theorem create_order_err_load {body : PyVal} {g n : String} {st : FileState}
    {st2 : FileState} {data : PyVal}
    (h : create_order body g n st = (.err, st2))
    (hload : (load_db st).1 = Except.ok data) : False := by
  unfold create_order at h
  dsimp only at h
  repeat' split at h
  all_goals simp_all

theorem create_product_dup_of_msg {body : PyVal} {g n : String} {st : FileState}
    {st2 : FileState} {data : PyVal}
    (h : create_product body g n st =
      (.badRequest "Product id already exists", st2))
    (hload : (load_db st).1 = Except.ok data) :
    (dlookup (index_by_id (docList data "products"))
      (cpPid (get_body body) g)).isSome = true := by
  unfold create_product at h
  dsimp only at h
  split at h
  · simp at h
  · split at h
    · simp at h
    · split at h
      · simp at h
      · split at h
        · simp at h
        · rename_i data0 st1 heq
          have hdata : data0 = data := by
            rw [heq] at hload
            simpa using hload
          subst hdata
          split at h
          · assumption
          · simp at h

theorem create_order_dup_of_msg {body : PyVal} {g n : String} {st : FileState}
    {st2 : FileState} {data : PyVal}
    (h : create_order body g n st =
      (.badRequest "Order id already exists", st2))
    (hload : (load_db st).1 = Except.ok data) :
    (dlookup (index_by_id (docList data "orders"))
      (coOid (get_body body) g)).isSome = true := by
  unfold create_order at h
  dsimp only at h
  split at h
  · simp at h
  · split at h
    · split at h
      · simp at h
      · split at h
        · simp at h
        · rename_i data0 st1 heq
          have hdata : data0 = data := by
            rw [heq] at hload
            simpa using hload
          subst hdata
          split at h
          · rename_i msg hmsg
            have hm := congrArg Prod.fst h
            simp only [Prod.fst] at hm
            obtain hmm := Resp.badRequest.injEq .. |>.mp hm
            exact absurd hmm (validate_items_error_ne hmsg)
          · split at h
            · assumption
            · simp at h
    · simp at h

theorem update_product_ok_shape {pid : String} {body : PyVal} {st : FileState}
    {c : Nat} {rec : PyVal} {st2 : FileState}
    (h : update_product pid body st = (.ok c rec, st2)) :
    ∃ data st1 r0,
      load_db st = (Except.ok data, st1) ∧
      dlookup (index_by_id (docList data "products")) pid = some r0 ∧
      ((dmem (get_body body) "price" = false ∧
          rec = (if dmem (get_body body) "name" = true then
            pySetField r0 "name" (.str (pyStr (dget (get_body body) "name"))) else r0)) ∨
        (∃ q, dmem (get_body body) "price" = true ∧
          pyFloat (dget (get_body body) "price") = some q ∧
          rec = pySetField (if dmem (get_body body) "name" = true then
            pySetField r0 "name" (.str (pyStr (dget (get_body body) "name"))) else r0)
            "price" (.float q))) ∧
      finishUpdate "products" data st1 (docList data "products") pid rec =
        (Resp.ok c rec, st2) := by
  unfold update_product at h
  dsimp only at h
  split at h
  · exact absurd h (by simp)
  · rename_i data st1 heq
    split at h
    · exact absurd h (by simp)
    · rename_i r0 hlook
      split at h
      · rename_i hprice
        split at h
        · exact absurd h (by simp)
        · rename_i q hq
          have hrec : rec = pySetField (if dmem (get_body body) "name" = true then
              pySetField r0 "name" (.str (pyStr (dget (get_body body) "name"))) else r0)
              "price" (.float q) := by
            have h1 := congrArg Prod.fst h
            unfold finishUpdate at h1
            dsimp only at h1
            split at h1
            · simp at h1
            · simpa using (Resp.ok.injEq .. |>.mp h1).2.symm
          exact ⟨data, st1, r0, heq, hlook,
            Or.inr ⟨q, hprice, hq, hrec⟩, by rw [← hrec] at h; exact h⟩
      · rename_i hprice
        have hprice2 : dmem (get_body body) "price" = false := by
          simpa using hprice
        have hrec : rec = (if dmem (get_body body) "name" = true then
            pySetField r0 "name" (.str (pyStr (dget (get_body body) "name"))) else r0) := by
          have h1 := congrArg Prod.fst h
          unfold finishUpdate at h1
          dsimp only at h1
          split at h1
          · simp at h1
          · simpa using (Resp.ok.injEq .. |>.mp h1).2.symm
        exact ⟨data, st1, r0, heq, hlook, Or.inl ⟨hprice2, hrec⟩,
          by rw [← hrec] at h; exact h⟩

theorem update_order_ok_shape {oid : String} {body : PyVal} {st : FileState}
    {c : Nat} {rec : PyVal} {st2 : FileState}
    (h : update_order oid body st = (.ok c rec, st2)) :
    ∃ data st1 r0,
      load_db st = (Except.ok data, st1) ∧
      dlookup (index_by_id (docList data "orders")) oid = some r0 ∧
      ((dmem (get_body body) "items" = false ∧
          rec = (if dmem (get_body body) "customer" = true then
            pySetField (if dmem (get_body body) "status" = true then
              pySetField r0 "status" (.str (pyStr (dget (get_body body) "status"))) else r0)
              "customer" (.str (pyStr (dget (get_body body) "customer")))
            else (if dmem (get_body body) "status" = true then
              pySetField r0 "status" (.str (pyStr (dget (get_body body) "status"))) else r0))) ∨
        (∃ its l, dmem (get_body body) "items" = true ∧
          dget (get_body body) "items" = .list its ∧
          validate_items (index_by_id (docList data "products")) its = .ok l ∧
          rec = pySetField (if dmem (get_body body) "customer" = true then
            pySetField (if dmem (get_body body) "status" = true then
              pySetField r0 "status" (.str (pyStr (dget (get_body body) "status"))) else r0)
              "customer" (.str (pyStr (dget (get_body body) "customer")))
            else (if dmem (get_body body) "status" = true then
              pySetField r0 "status" (.str (pyStr (dget (get_body body) "status"))) else r0))
            "items" (.list l))) ∧
      finishUpdate "orders" data st1 (docList data "orders") oid rec =
        (Resp.ok c rec, st2) := by
  unfold update_order at h
  dsimp only at h
  split at h
  · exact absurd h (by simp)
  · rename_i data st1 heq
    split at h
    · exact absurd h (by simp)
    · rename_i r0 hlook
      split at h
      · rename_i hmem
        split at h
        · rename_i its hits
          split at h
          · exact absurd h (by simp)
          · split at h
            · exact absurd h (by simp)
            · rename_i l hval
              have hrec : rec = pySetField (if dmem (get_body body) "customer" = true then
                  pySetField (if dmem (get_body body) "status" = true then
                    pySetField r0 "status" (.str (pyStr (dget (get_body body) "status"))) else r0)
                    "customer" (.str (pyStr (dget (get_body body) "customer")))
                  else (if dmem (get_body body) "status" = true then
                    pySetField r0 "status" (.str (pyStr (dget (get_body body) "status"))) else r0))
                  "items" (.list l) := by
                have h1 := congrArg Prod.fst h
                unfold finishUpdate at h1
                dsimp only at h1
                split at h1
                · simp at h1
                · simpa using (Resp.ok.injEq .. |>.mp h1).2.symm
              exact ⟨data, st1, r0, heq, hlook,
                Or.inr ⟨its, l, hmem, hits, hval, hrec⟩,
                by rw [← hrec] at h; exact h⟩
        · exact absurd h (by simp)
      · rename_i hmem
        have hmem2 : dmem (get_body body) "items" = false := by simpa using hmem
        have hrec : rec = (if dmem (get_body body) "customer" = true then
            pySetField (if dmem (get_body body) "status" = true then
              pySetField r0 "status" (.str (pyStr (dget (get_body body) "status"))) else r0)
              "customer" (.str (pyStr (dget (get_body body) "customer")))
            else (if dmem (get_body body) "status" = true then
              pySetField r0 "status" (.str (pyStr (dget (get_body body) "status"))) else r0)) := by
          have h1 := congrArg Prod.fst h
          unfold finishUpdate at h1
          dsimp only at h1
          split at h1
          · simp at h1
          · simpa using (Resp.ok.injEq .. |>.mp h1).2.symm
        exact ⟨data, st1, r0, heq, hlook, Or.inl ⟨hmem2, hrec⟩,
          by rw [← hrec] at h; exact h⟩

theorem update_product_badRequest_price {pid : String} {body : PyVal}
    {st : FileState} {m : String} {st2 : FileState}
    (h : update_product pid body st = (.badRequest m, st2)) :
    dmem (get_body body) "price" = true ∧
    pyFloat (dget (get_body body) "price") = Option.none := by
  unfold update_product finishUpdate at h
  dsimp only at h
  split at h
  · simp at h
  · split at h
    · simp at h
    · split at h
      · rename_i hmem
        split at h
        · rename_i hpf
          exact ⟨hmem, hpf⟩
        · split at h
          · simp at h
          · simp at h
      · split at h
        · simp at h
        · simp at h

theorem update_product_notFound_lookup {pid : String} {body : PyVal}
    {st : FileState} {m : String} {st2 : FileState} {data : PyVal}
    (h : update_product pid body st = (.notFound m, st2))
    (hload : (load_db st).1 = Except.ok data) :
    dlookup (index_by_id (docList data "products")) pid = Option.none := by
  unfold update_product finishUpdate at h
  dsimp only at h
  split at h
  · rename_i heq
    rw [heq] at hload
    exact absurd hload (by simp)
  · rename_i data0 st1 heq
    have hdata : data0 = data := by
      rw [heq] at hload
      simpa using hload
    subst hdata
    split at h
    · rename_i hlook
      exact hlook
    · split at h
      · split at h
        · simp at h
        · split at h
          · simp at h
          · simp at h
      · split at h
        · simp at h
        · simp at h

theorem create_product_err_price {body : PyVal} {g n : String} {st : FileState}
    {st2 : FileState}
    (h : create_product body g n st = (.err, st2)) :
    ∃ q, pyFloat (dget (get_body body) "price") = some q := by
  unfold create_product at h
  dsimp only at h
  split at h
  · simp at h
  · split at h
    · simp at h
    · split at h
      · simp at h
      · rename_i q hq
        split at h
        · exact ⟨q, hq⟩
        · split at h
          · simp at h
          · simp at h

theorem update_product_err_price {pid : String} {body : PyVal} {st : FileState}
    {st2 : FileState} {data : PyVal}
    (h : update_product pid body st = (.err, st2))
    (hload : (load_db st).1 = Except.ok data)
    (hmem : dmem (get_body body) "price" = true) :
    ∃ q, pyFloat (dget (get_body body) "price") = some q := by
  unfold update_product finishUpdate at h
  dsimp only at h
  split at h
  · rename_i heq
    rw [heq] at hload
    exact absurd hload (by simp)
  · split at h
    · simp at h
    · split at h
      · split at h
        · simp at h
        · rename_i q hq
          exact ⟨q, hq⟩
      · rename_i hnm
        exact absurd hmem hnm

theorem lastIdxWithId_spec {rid : String} :
    ∀ {ps : List PyVal} {i : Nat}, lastIdxWithId rid ps = some i →
    ∃ p, ps.get? i = some p ∧ recHasId rid p = true := by
  intro ps
  induction ps with
  | nil => intro i h; simp [lastIdxWithId] at h
  | cons p rest ih =>
      intro i h
      unfold lastIdxWithId at h
      cases hrec : lastIdxWithId rid rest with
      | some i2 =>
          rw [hrec] at h
          cases h
          obtain ⟨p2, h1, h2⟩ := ih hrec
          exact ⟨p2, by simpa using h1, h2⟩
      | none =>
          rw [hrec] at h
          dsimp only at h
          split at h
          · next hhas =>
              cases h
              exact ⟨p, rfl, hhas⟩
          · exact absurd h (by simp)

theorem lastIdxWithId_none {rid : String} :
    ∀ {ps : List PyVal}, lastIdxWithId rid ps = Option.none →
    ∀ p ∈ ps, recHasId rid p = false := by
  intro ps
  induction ps with
  | nil => intro h p hp; simp at hp
  | cons p0 rest ih =>
      intro h p hp
      unfold lastIdxWithId at h
      cases hrec : lastIdxWithId rid rest with
      | some i2 => rw [hrec] at h; simp at h
      | none =>
          rw [hrec] at h
          dsimp only at h
          split at h
          · simp at h
          · next hhas =>
              rcases List.mem_cons.mp hp with rfl | hp2
              · simpa using hhas
              · exact ih hrec p hp2

theorem lastIdxWithId_unique {rid : String} :
    ∀ {ps : List PyVal} {j : Nat}, j < ps.length →
    (∀ i p, ps.get? i = some p → (recHasId rid p = true ↔ i = j)) →
    lastIdxWithId rid ps = some j := by
  intro ps
  induction ps with
  | nil => intro j hj _; simp at hj
  | cons p rest ih =>
      intro j hj huniq
      unfold lastIdxWithId
      cases hrec : lastIdxWithId rid rest with
      | some i2 =>
          obtain ⟨p2, h1, h2⟩ := lastIdxWithId_spec hrec
          have hij := (huniq (i2 + 1) p2 (by simpa using h1)).mp h2
          dsimp only
          exact congrArg some hij
      | none =>
          dsimp only
          cases j with
          | zero =>
              have hp := (huniq 0 p rfl).mpr rfl
              rw [hp]
              rfl
          | succ j2 =>
              have hj2 : j2 < rest.length := by simpa using hj
              obtain ⟨pj, hpj⟩ : ∃ pj, rest.get? j2 = some pj := by
                rw [List.get?_eq_get hj2]
                exact ⟨_, rfl⟩
              have hhas := (huniq (j2 + 1) pj (by simpa using hpj)).mpr rfl
              have hnone := lastIdxWithId_none hrec pj (List.get?_mem hpj)
              rw [hhas] at hnone
              exact absurd hnone (by simp)

theorem lastMatchRec_eq_idx (rid : String) :
    ∀ (ps : List PyVal), lastMatchRec rid ps =
      (lastIdxWithId rid ps).bind (fun i => ps.get? i) := by
  intro ps
  induction ps with
  | nil => simp [lastMatchRec, lastIdxWithId]
  | cons p rest ih =>
      unfold lastMatchRec lastIdxWithId
      cases hrec : lastIdxWithId rid rest with
      | some i =>
          obtain ⟨p2, h1, _⟩ := lastIdxWithId_spec hrec
          have h1b : rest[i]? = some p2 := by
            rw [← List.get?_eq_getElem?]
            exact h1
          rw [ih, hrec]
          simp [h1b]
      | none =>
          rw [ih, hrec]
          by_cases hhas : recHasId rid p
          · simp [hhas]
          · simp [hhas]

theorem firstLoopIdx_unique {rid : String} :
    ∀ {ps : List PyVal} {j : Nat},
    (∀ p ∈ ps, ∃ kvs, p = PyVal.dict kvs) →
    (∀ i p, ps.get? i = some p →
      ((∃ kvs, p = PyVal.dict kvs ∧ pyStr (dget kvs "id") = rid) ↔ i = j)) →
    j < ps.length →
    firstLoopIdx rid ps = .ok (some j) := by
  intro ps
  induction ps with
  | nil => intro j _ _ hj; simp at hj
  | cons p rest ih =>
      intro j hdicts huniq hj
      obtain ⟨kvs, hkvs⟩ := hdicts p (List.mem_cons_self _ _)
      subst hkvs
      unfold firstLoopIdx
      simp only [pyGetE, Bind.bind, Except.bind]
      cases j with
      | zero =>
          have hmatch := (huniq 0 (PyVal.dict kvs) rfl).mpr rfl
          obtain ⟨kvs2, he, hid⟩ := hmatch
          cases he
          rw [if_pos hid]
          rfl
      | succ j2 =>
          have hnot : ¬ pyStr (dget kvs "id") = rid := by
            intro hid
            have := (huniq 0 (PyVal.dict kvs) rfl).mp ⟨kvs, rfl, hid⟩
            simp at this
          rw [if_neg hnot]
          have hrec := ih (fun q hq => hdicts q (List.mem_cons_of_mem _ hq))
            (fun i q hq => by
              have := huniq (i + 1) q (by simpa using hq)
              simpa using this)
            (by simpa using hj)
          rw [hrec]
          rfl

theorem condSet_spec (kvs : List (String × PyVal)) (flag : Bool) (kx : String)
    (v : PyVal) :
    ∃ kvs2, (if flag = true then pySetField (PyVal.dict kvs) kx v
        else PyVal.dict kvs) = PyVal.dict kvs2 ∧
      (∀ k, k ≠ kx → dlookup kvs2 k = dlookup kvs k) ∧
      (flag = true → dlookup kvs2 kx = some v) ∧
      (flag = false → dlookup kvs2 kx = dlookup kvs kx) := by
  cases flag with
  | false =>
      refine ⟨kvs, by simp, fun k _ => rfl, ?_, fun _ => rfl⟩
      intro h
      simp at h
  | true =>
      refine ⟨dictSet kvs kx v, by simp [pySetField], ?_, ?_, ?_⟩
      · intro k hk
        exact dlookup_dictSet_ne _ _ hk
      · intro _
        exact dlookup_dictSet_self _ _ _
      · intro h
        simp at h

theorem finishUpdate_unique (coll : String) (data : PyVal) (st1 : FileState)
    {os : List PyVal} {rid : String} {r : PyVal} {j : Nat}
    (hlast : lastIdxWithId rid os = some j)
    (hfirst : firstLoopIdx rid (os.set j r) = .ok (some j)) :
    finishUpdate coll data st1 os rid r =
      (Resp.ok 200 r, save_db (docSet data coll (.list (os.set j r)))) := by
  unfold finishUpdate
  rw [hlast]
  dsimp only
  rw [hfirst]
  dsimp only
  rw [List.set_set]

/-!
## Claims
-/

/-- C3: for create-order, and for update-order when an items list is
supplied, the request succeeds only if every item is an object whose
stringified, whitespace-stripped `productId` is non-empty and present in
the current product index and whose `qty` converts to an integer strictly
greater than zero; a single violating item makes the whole request fail
with BadRequest and leaves the persisted document unchanged (no partial
acceptance). -/
theorem c3_item_rules :
    (∀ (body : PyVal) (g n : String) (st : FileState) (rec : PyVal)
        (st2 : FileState) (data : PyVal),
      create_order body g n st = (Resp.ok 201 rec, st2) →
      (load_db st).1 = Except.ok data →
      ∀ it ∈ pyListOf (dget (get_body body) "items"),
        specItemOk (index_by_id (docList data "products")) it = true) ∧
    (∀ (body : PyVal) (g n : String) (st : FileState) (data it : PyVal),
      (load_db st).1 = Except.ok data →
      it ∈ pyListOf (dget (get_body body) "items") →
      specItemOk (index_by_id (docList data "products")) it = false →
      (∃ m, (create_order body g n st).1 = Resp.badRequest m) ∧
      (load_db (create_order body g n st).2).1 = (load_db st).1) ∧
    (∀ (oid : String) (body : PyVal) (st : FileState) (rec : PyVal)
        (st2 : FileState) (data : PyVal),
      update_order oid body st = (Resp.ok 200 rec, st2) →
      (load_db st).1 = Except.ok data →
      dmem (get_body body) "items" = true →
      ∀ it ∈ pyListOf (dget (get_body body) "items"),
        specItemOk (index_by_id (docList data "products")) it = true) ∧
    (∀ (oid : String) (body : PyVal) (st : FileState) (data it : PyVal),
      (load_db st).1 = Except.ok data →
      (dlookup (index_by_id (docList data "orders")) oid).isSome = true →
      it ∈ pyListOf (dget (get_body body) "items") →
      specItemOk (index_by_id (docList data "products")) it = false →
      (∃ m, (update_order oid body st).1 = Resp.badRequest m) ∧
      (load_db (update_order oid body st).2).1 = (load_db st).1) := by
  refine ⟨?_, ?_, ?_, ?_⟩
  · intro body g n st rec st2 data h hload
    exact create_order_valid_of_not400 h hload (by simp)
  · intro body g n st data it hload hit hbad
    rcases hr : create_order body g n st with ⟨r, st3⟩
    cases r with
    | badRequest m =>
        exact ⟨⟨m, rfl⟩, (create_order_badRequest_state hr).2⟩
    | ok code rec =>
        exact absurd (create_order_valid_of_not400 hr hload (by simp) it hit)
          (by simp [hbad])
    | notFound m =>
        exact absurd (create_order_valid_of_not400 hr hload (by simp) it hit)
          (by simp [hbad])
    | err =>
        exact absurd (create_order_valid_of_not400 hr hload (by simp) it hit)
          (by simp [hbad])
  · intro oid body st rec st2 data h hload hmem
    exact update_order_valid_of_not400 h hload (by simp) (by simp) hmem
  · intro oid body st data it hload hfound hit hbad
    have hmem : dmem (get_body body) "items" = true := by
      cases hdm : dlookup (get_body body) "items" with
      | none =>
          have hnil : pyListOf (dget (get_body body) "items") = [] := by
            simp [dget, hdm, pyListOf]
          rw [hnil] at hit
          simp at hit
      | some v => simp [dmem, hdm]
    rcases hr : update_order oid body st with ⟨r, st3⟩
    cases r with
    | badRequest m =>
        exact ⟨⟨m, rfl⟩, (update_order_badRequest_state hr).2⟩
    | ok code rec =>
        exact absurd (update_order_valid_of_not400 hr hload (by simp) (by simp) hmem it hit)
          (by simp [hbad])
    | notFound m =>
        have := update_order_notFound_lookup hr hload
        rw [this] at hfound
        exact absurd hfound (by simp)
    | err =>
        exact absurd (update_order_valid_of_not400 hr hload (by simp) (by simp) hmem it hit)
          (by simp [hbad])

/-- C3, witness: a create whose one item references the stored product
passes the item rule; a create and an update whose one item references the
unknown id "ghost" are rejected with 400 and leave the document unchanged. -/
theorem c3_witness :
    (∀ it ∈ pyListOf (dget (get_body goodOrderBody) "items"),
      specItemOk (index_by_id (docList sampleDoc "products")) it = true) ∧
    (∃ m, (create_order ghostOrderBody "x" "t" sampleSt).1 = Resp.badRequest m) ∧
    (load_db (create_order ghostOrderBody "x" "t" sampleSt).2).1 =
      (load_db sampleSt).1 ∧
    (∃ m, (update_order "o1" ghostOrderBody sampleSt).1 = Resp.badRequest m) ∧
    (load_db (update_order "o1" ghostOrderBody sampleSt).2).1 =
      (load_db sampleSt).1 := by
  have hload : (load_db sampleSt).1 = Except.ok sampleDoc := by rfl
  have hmem : (PyVal.dict [("productId", PyVal.str "ghost"), ("qty", PyVal.int 1)]) ∈
      pyListOf (dget (get_body ghostOrderBody) "items") := by
    simp [ghostOrderBody, get_body, dget, dlookup, pyListOf]
  have hbad : specItemOk (index_by_id (docList sampleDoc "products"))
      (PyVal.dict [("productId", PyVal.str "ghost"), ("qty", PyVal.int 1)]) = false := by
    rfl
  obtain ⟨hb1, hb2⟩ := c3_item_rules.2.1 ghostOrderBody "x" "t" sampleSt sampleDoc _
    hload hmem hbad
  obtain ⟨hd1, hd2⟩ := c3_item_rules.2.2.2 "o1" ghostOrderBody sampleSt sampleDoc _
    hload (by rfl) hmem hbad
  refine ⟨?_, hb1, hb2, hd1, hd2⟩
  exact c3_item_rules.1 goodOrderBody "x" "t" sampleSt _ _ sampleDoc (by rfl) hload

/-- C4: a create-product or create-order that supplies a truthy id whose
string form is already a key of the same collection's index answers
BadRequest and leaves the persisted document unchanged; when the supplied
(truthy) id is not already present, a successful create uses exactly its
string form as the new record's id. -/
theorem c4_duplicate_id :
    (∀ (body : PyVal) (g n : String) (st : FileState) (data : PyVal),
      (load_db st).1 = Except.ok data →
      pyTruthy (dget (get_body body) "id") = true →
      (dlookup (index_by_id (docList data "products"))
        (pyStr (dget (get_body body) "id"))).isSome = true →
      (∃ m, (create_product body g n st).1 = Resp.badRequest m) ∧
      (load_db (create_product body g n st).2).1 = (load_db st).1) ∧
    (∀ (body : PyVal) (g n : String) (st : FileState) (rec : PyVal)
        (st2 : FileState),
      create_product body g n st = (Resp.ok 201 rec, st2) →
      pyTruthy (dget (get_body body) "id") = true →
      docGet rec "id" = .str (pyStr (dget (get_body body) "id"))) ∧
    (∀ (body : PyVal) (g n : String) (st : FileState) (data : PyVal),
      (load_db st).1 = Except.ok data →
      pyTruthy (dget (get_body body) "id") = true →
      (dlookup (index_by_id (docList data "orders"))
        (pyStr (dget (get_body body) "id"))).isSome = true →
      (∃ m, (create_order body g n st).1 = Resp.badRequest m) ∧
      (load_db (create_order body g n st).2).1 = (load_db st).1) ∧
    (∀ (body : PyVal) (g n : String) (st : FileState) (rec : PyVal)
        (st2 : FileState),
      create_order body g n st = (Resp.ok 201 rec, st2) →
      pyTruthy (dget (get_body body) "id") = true →
      docGet rec "id" = .str (pyStr (dget (get_body body) "id"))) := by
  refine ⟨?_, ?_, ?_, ?_⟩
  · intro body g n st data hload htr hdup
    rcases hr : create_product body g n st with ⟨r, st3⟩
    cases r with
    | badRequest m => exact ⟨⟨m, rfl⟩, (create_product_badRequest_state hr).2⟩
    | ok c rec =>
        obtain ⟨data0, st1, q, heq, _, _, _, hfresh, _⟩ := create_product_ok_shape hr
        have hdata : data0 = data := by
          rw [heq] at hload
          simpa using hload
        subst hdata
        rw [cpPid, if_pos htr] at hfresh
        rw [hfresh] at hdup
        exact absurd hdup (by simp)
    | notFound m => exact (create_product_not_notFound hr).elim
    | err => exact (create_product_err_load hr hload).elim
  · intro body g n st rec st2 h htr
    obtain ⟨data, st1, q, heq, _, _, hrec, _, _⟩ := create_product_ok_shape h
    subst hrec
    show dget _ "id" = _
    rw [cpPid, if_pos htr]
    simp [dget, dlookup]
  · intro body g n st data hload htr hdup
    rcases hr : create_order body g n st with ⟨r, st3⟩
    cases r with
    | badRequest m => exact ⟨⟨m, rfl⟩, (create_order_badRequest_state hr).2⟩
    | ok c rec =>
        obtain ⟨data0, st1, its, nor, heq, _, _, _, _, hfresh, _⟩ :=
          create_order_ok_shape hr
        have hdata : data0 = data := by
          rw [heq] at hload
          simpa using hload
        subst hdata
        rw [coOid, if_pos htr] at hfresh
        rw [hfresh] at hdup
        exact absurd hdup (by simp)
    | notFound m => exact (create_order_not_notFound hr).elim
    | err => exact (create_order_err_load hr hload).elim
  · intro body g n st rec st2 h htr
    obtain ⟨data, st1, its, nor, heq, _, _, _, hrec, _, _⟩ := create_order_ok_shape h
    subst hrec
    show dget _ "id" = _
    rw [coOid, if_pos htr]
    simp [dget, dlookup]

/-- C4, witness: creating a product with the already-stored id "p1" is a
400 that changes nothing; creating with the fresh id "p9" succeeds and the
record carries exactly "p9"; same for an order reusing "o1". -/
theorem c4_witness :
    ((∃ m, (create_product (PyVal.dict [("id", .str "p1"), ("name", .str "X"),
        ("price", .int 1)]) "g" "t" sampleSt).1 = Resp.badRequest m) ∧
      (load_db (create_product (PyVal.dict [("id", .str "p1"), ("name", .str "X"),
        ("price", .int 1)]) "g" "t" sampleSt).2).1 = (load_db sampleSt).1) ∧
    docGet (PyVal.dict [("id", PyVal.str "p9"), ("name", PyVal.str "X"),
      ("price", PyVal.float 1), ("createdAt", PyVal.str "t")]) "id" =
      .str (pyStr (dget (get_body (PyVal.dict [("id", .str "p9"),
        ("name", .str "X"), ("price", .int 1)])) "id")) ∧
    ((∃ m, (create_order (PyVal.dict [("id", .str "o1"), ("customer", .str "A"),
        ("items", .list [PyVal.dict [("productId", .str "p1"), ("qty", .int 1)]])])
        "g" "t" sampleSt).1 = Resp.badRequest m) ∧
      (load_db (create_order (PyVal.dict [("id", .str "o1"), ("customer", .str "A"),
        ("items", .list [PyVal.dict [("productId", .str "p1"), ("qty", .int 1)]])])
        "g" "t" sampleSt).2).1 = (load_db sampleSt).1) := by
  refine ⟨?_, ?_, ?_⟩
  · exact c4_duplicate_id.1 (PyVal.dict [("id", .str "p1"), ("name", .str "X"),
      ("price", .int 1)]) "g" "t" sampleSt sampleDoc (by rfl) (by rfl) (by rfl)
  · exact c4_duplicate_id.2.1 (PyVal.dict [("id", .str "p9"), ("name", .str "X"),
      ("price", .int 1)]) "g" "t" sampleSt
      (PyVal.dict [("id", PyVal.str "p9"), ("name", PyVal.str "X"),
        ("price", PyVal.float 1), ("createdAt", PyVal.str "t")])
      (create_product (PyVal.dict [("id", .str "p9"), ("name", .str "X"),
        ("price", .int 1)]) "g" "t" sampleSt).2 (by rfl) (by rfl)
  · exact c4_duplicate_id.2.2.1 (PyVal.dict [("id", .str "o1"), ("customer", .str "A"),
      ("items", .list [PyVal.dict [("productId", .str "p1"), ("qty", .int 1)]])])
      "g" "t" sampleSt sampleDoc (by rfl) (by rfl) (by rfl)

/-- C10: a falsy supplied id (absent, null, empty string, 0, false) is
ignored: a successful create assigns the generated id `p-`/`o-` followed by
the first 8 characters of the uuid hex (8 hex characters, so the id is
never the empty string), and a duplicate-id rejection can only be caused by
the generated id already being present — never by the falsy supplied value.
Every successfully created record, falsy or truthy id, carries a non-empty
string id. -/
theorem c10_falsy_id_generated :
    (∀ (body : PyVal) (g n : String) (st : FileState) (rec : PyVal)
        (st2 : FileState),
      create_product body g n st = (Resp.ok 201 rec, st2) →
      pyTruthy (dget (get_body body) "id") = false →
      docGet rec "id" = .str ("p-" ++ pyTake g 8) ∧ ("p-" ++ pyTake g 8) ≠ "") ∧
    (∀ (body : PyVal) (g n : String) (st : FileState) (st2 : FileState)
        (data : PyVal),
      create_product body g n st =
        (Resp.badRequest "Product id already exists", st2) →
      (load_db st).1 = Except.ok data →
      pyTruthy (dget (get_body body) "id") = false →
      (dlookup (index_by_id (docList data "products"))
        ("p-" ++ pyTake g 8)).isSome = true) ∧
    (∀ (body : PyVal) (g n : String) (st : FileState) (rec : PyVal)
        (st2 : FileState),
      create_order body g n st = (Resp.ok 201 rec, st2) →
      pyTruthy (dget (get_body body) "id") = false →
      docGet rec "id" = .str ("o-" ++ pyTake g 8) ∧ ("o-" ++ pyTake g 8) ≠ "") ∧
    (∀ (body : PyVal) (g n : String) (st : FileState) (st2 : FileState)
        (data : PyVal),
      create_order body g n st =
        (Resp.badRequest "Order id already exists", st2) →
      (load_db st).1 = Except.ok data →
      pyTruthy (dget (get_body body) "id") = false →
      (dlookup (index_by_id (docList data "orders"))
        ("o-" ++ pyTake g 8)).isSome = true) ∧
    (∀ (cs : List Char), cs.length = 32 →
      (∀ c ∈ cs, c ∈ ("0123456789abcdef").data) →
      (pyTake (String.mk cs) 8).length = 8 ∧
      ∀ c ∈ (pyTake (String.mk cs) 8).data, c ∈ ("0123456789abcdef").data) ∧
    (∀ (body : PyVal) (g n : String) (st : FileState) (rec : PyVal)
        (st2 : FileState),
      create_product body g n st = (Resp.ok 201 rec, st2) →
      ∃ s, docGet rec "id" = PyVal.str s ∧ s ≠ "") ∧
    (∀ (body : PyVal) (g n : String) (st : FileState) (rec : PyVal)
        (st2 : FileState),
      create_order body g n st = (Resp.ok 201 rec, st2) →
      ∃ s, docGet rec "id" = PyVal.str s ∧ s ≠ "") := by
  have hpne : ∀ g : String, ("p-" ++ pyTake g 8) ≠ "" :=
    fun g => str_append_ne_empty _ _ (by decide)
  have hone : ∀ g : String, ("o-" ++ pyTake g 8) ≠ "" :=
    fun g => str_append_ne_empty _ _ (by decide)
  refine ⟨?_, ?_, ?_, ?_, ?_, ?_, ?_⟩
  · intro body g n st rec st2 h hf
    obtain ⟨data, st1, q, heq, _, _, hrec, _, _⟩ := create_product_ok_shape h
    subst hrec
    refine ⟨?_, hpne g⟩
    show dget _ "id" = _
    rw [cpPid, if_neg (by simp [hf])]
    simp [dget, dlookup]
  · intro body g n st st2 data h hload hf
    have hdup := create_product_dup_of_msg h hload
    rw [cpPid, if_neg (by simp [hf])] at hdup
    exact hdup
  · intro body g n st rec st2 h hf
    obtain ⟨data, st1, its, nor, heq, _, _, _, hrec, _, _⟩ := create_order_ok_shape h
    subst hrec
    refine ⟨?_, hone g⟩
    show dget _ "id" = _
    rw [coOid, if_neg (by simp [hf])]
    simp [dget, dlookup]
  · intro body g n st st2 data h hload hf
    have hdup := create_order_dup_of_msg h hload
    rw [coOid, if_neg (by simp [hf])] at hdup
    exact hdup
  · intro cs hlen hhex
    constructor
    · show (cs.take 8).length = 8
      rw [List.length_take, hlen]
      decide
    · intro c hc
      exact hhex c (List.take_subset 8 cs hc)
  · intro body g n st rec st2 h
    obtain ⟨data, st1, q, heq, _, _, hrec, _, _⟩ := create_product_ok_shape h
    subst hrec
    refine ⟨cpPid (get_body body) g, by simp [docGet, dget, dlookup], ?_⟩
    rw [cpPid]
    by_cases htr : pyTruthy (dget (get_body body) "id") = true
    · rw [if_pos htr]
      exact pyStr_truthy_ne_empty htr
    · rw [if_neg htr]
      exact hpne g
  · intro body g n st rec st2 h
    obtain ⟨data, st1, its, nor, heq, _, _, _, hrec, _, _⟩ := create_order_ok_shape h
    subst hrec
    refine ⟨coOid (get_body body) g, by simp [docGet, dget, dlookup], ?_⟩
    rw [coOid]
    by_cases htr : pyTruthy (dget (get_body body) "id") = true
    · rw [if_pos htr]
      exact pyStr_truthy_ne_empty htr
    · rw [if_neg htr]
      exact hone g

/-- C10, witness: creating a product without an id generates
`p-01234567` from the uuid hex `0123456789abcdef...`; with the supplied
falsy id `0` and a store already holding `p-1`, the duplicate rejection is
caused by the generated id `p-1`; the generated suffix is 8 hex characters;
and the created record's id is a non-empty string. -/
theorem c10_witness :
    (docGet (PyVal.dict [("id", PyVal.str "p-01234567"), ("name", PyVal.str "X"),
        ("price", PyVal.float 1), ("createdAt", PyVal.str "t")]) "id" =
      PyVal.str ("p-" ++ pyTake "0123456789abcdef0123456789abcdef" 8) ∧
      ("p-" ++ pyTake "0123456789abcdef0123456789abcdef" 8) ≠ "") ∧
    (dlookup (index_by_id (docList (PyVal.dict [("products", PyVal.list [PyVal.dict
        [("id", PyVal.str "p-1")]]), ("orders", PyVal.list [])]) "products"))
      ("p-" ++ pyTake "1" 8)).isSome = true ∧
    ((pyTake (String.mk ("0123456789abcdef0123456789abcdef").data) 8).length = 8 ∧
      ∀ c ∈ (pyTake (String.mk ("0123456789abcdef0123456789abcdef").data) 8).data,
        c ∈ ("0123456789abcdef").data) ∧
    (∃ s, docGet (PyVal.dict [("id", PyVal.str "p-01234567"), ("name", PyVal.str "X"),
        ("price", PyVal.float 1), ("createdAt", PyVal.str "t")]) "id" =
      PyVal.str s ∧ s ≠ "") := by
  refine ⟨?_, ?_, ?_, ?_⟩
  · exact c10_falsy_id_generated.1 (PyVal.dict [("name", .str "X"), ("price", .int 1)])
      "0123456789abcdef0123456789abcdef" "t" sampleSt
      (PyVal.dict [("id", PyVal.str "p-01234567"), ("name", PyVal.str "X"),
        ("price", PyVal.float 1), ("createdAt", PyVal.str "t")])
      (create_product (PyVal.dict [("name", .str "X"), ("price", .int 1)])
        "0123456789abcdef0123456789abcdef" "t" sampleSt).2 (by rfl) (by rfl)
  · exact c10_falsy_id_generated.2.1
      (PyVal.dict [("name", .str "X"), ("price", .int 1), ("id", .int 0)]) "1" "t"
      (FileState.wellFormed (PyVal.dict [("products", PyVal.list [PyVal.dict
        [("id", PyVal.str "p-1")]]), ("orders", PyVal.list [])]))
      (create_product (PyVal.dict [("name", .str "X"), ("price", .int 1), ("id", .int 0)])
        "1" "t" (FileState.wellFormed (PyVal.dict [("products", PyVal.list [PyVal.dict
          [("id", PyVal.str "p-1")]]), ("orders", PyVal.list [])]))).2
      (PyVal.dict [("products", PyVal.list [PyVal.dict [("id", PyVal.str "p-1")]]),
        ("orders", PyVal.list [])])
      (by rfl) (by rfl) (by rfl)
  · exact c10_falsy_id_generated.2.2.2.2.1 ("0123456789abcdef0123456789abcdef").data
      (by rfl) (by decide)
  · exact c10_falsy_id_generated.2.2.2.2.2.1
      (PyVal.dict [("name", .str "X"), ("price", .int 1)])
      "0123456789abcdef0123456789abcdef" "t" sampleSt
      (PyVal.dict [("id", PyVal.str "p-01234567"), ("name", PyVal.str "X"),
        ("price", PyVal.float 1), ("createdAt", PyVal.str "t")])
      (create_product (PyVal.dict [("name", .str "X"), ("price", .int 1)])
        "0123456789abcdef0123456789abcdef" "t" sampleSt).2 (by rfl)

/-- C7: a successful create, immediately followed by a get on the created
record's id against the state the create saved, returns exactly the created
record (and leaves the state untouched) — for products and for orders. -/
theorem c7_create_get_roundtrip :
    (∀ (body : PyVal) (g n : String) (st : FileState) (rec : PyVal)
        (st2 : FileState) (pid : String),
      create_product body g n st = (Resp.ok 201 rec, st2) →
      docGet rec "id" = .str pid →
      get_product pid st2 = (Resp.ok 200 rec, st2)) ∧
    (∀ (body : PyVal) (g n : String) (st : FileState) (rec : PyVal)
        (st2 : FileState) (oid : String),
      create_order body g n st = (Resp.ok 201 rec, st2) →
      docGet rec "id" = .str oid →
      get_order oid st2 = (Resp.ok 200 rec, st2)) := by
  constructor
  · intro body g n st rec st2 pid h hid
    obtain ⟨data, st1, q, heq, _, hq, hrec, hfresh, hst2⟩ := create_product_ok_shape h
    obtain ⟨kvs0, hdata, ⟨ps0, hps⟩, ⟨os0, hos⟩⟩ :=
      load_db_fields (show (load_db st).1 = Except.ok data by rw [heq])
    have hpid : pid = cpPid (get_body body) g := by
      rw [hrec] at hid
      simp only [docGet, dget, dlookup] at hid
      exact (PyVal.str.injEq .. |>.mp (by simpa using hid.symm))
    subst hpid
    subst hdata
    have hlist : docList (PyVal.dict kvs0) "products" = ps0 :=
      docList_of_lookup rfl hps
    have hdata1 : docSet (PyVal.dict kvs0) "products"
        (PyVal.list (docList (PyVal.dict kvs0) "products" ++ [rec])) =
        PyVal.dict (dictSet kvs0 "products" (PyVal.list (ps0 ++ [rec]))) := by
      rw [hlist]
      rfl
    rw [hdata1] at hst2
    have hload2 : load_db st2 =
        (Except.ok (PyVal.dict (dictSet kvs0 "products" (PyVal.list (ps0 ++ [rec])))),
          st2) := by
      rw [hst2]
      show (repairDoc _, _) = _
      rw [repairDoc_noop ⟨ps0 ++ [rec], dlookup_dictSet_self _ _ _⟩
        ⟨os0, by rw [dlookup_dictSet_ne _ _ (by decide)]; exact hos⟩]
      rfl
    have hrecHas : recHasId (cpPid (get_body body) g) rec = true := by
      rw [hrec]
      simp [recHasId, dmem, dget, dlookup, pyStr]
    have hlook : dlookup (index_by_id (docList
        (PyVal.dict (dictSet kvs0 "products" (PyVal.list (ps0 ++ [rec])))) "products"))
        (cpPid (get_body body) g) = some rec := by
      rw [docList_of_lookup rfl (dlookup_dictSet_self _ _ _)]
      rw [dlookup_index_by_id, lastMatchRec_append_single, if_pos hrecHas]
    unfold get_product
    rw [hload2]
    dsimp only
    rw [hlook]
  · intro body g n st rec st2 oid h hid
    obtain ⟨data, st1, its, nor, heq, _, _, _, hrec, hfresh, hst2⟩ :=
      create_order_ok_shape h
    obtain ⟨kvs0, hdata, ⟨ps0, hps⟩, ⟨os0, hos⟩⟩ :=
      load_db_fields (show (load_db st).1 = Except.ok data by rw [heq])
    have hoid : oid = coOid (get_body body) g := by
      rw [hrec] at hid
      simp only [docGet, dget, dlookup] at hid
      exact (PyVal.str.injEq .. |>.mp (by simpa using hid.symm))
    subst hoid
    subst hdata
    have hlist : docList (PyVal.dict kvs0) "orders" = os0 :=
      docList_of_lookup rfl hos
    have hdata1 : docSet (PyVal.dict kvs0) "orders"
        (PyVal.list (docList (PyVal.dict kvs0) "orders" ++ [rec])) =
        PyVal.dict (dictSet kvs0 "orders" (PyVal.list (os0 ++ [rec]))) := by
      rw [hlist]
      rfl
    rw [hdata1] at hst2
    have hload2 : load_db st2 =
        (Except.ok (PyVal.dict (dictSet kvs0 "orders" (PyVal.list (os0 ++ [rec])))),
          st2) := by
      rw [hst2]
      show (repairDoc _, _) = _
      rw [repairDoc_noop ⟨ps0, by rw [dlookup_dictSet_ne _ _ (by decide)]; exact hps⟩
        ⟨os0 ++ [rec], dlookup_dictSet_self _ _ _⟩]
      rfl
    have hrecHas : recHasId (coOid (get_body body) g) rec = true := by
      rw [hrec]
      simp [recHasId, dmem, dget, dlookup, pyStr]
    have hlook : dlookup (index_by_id (docList
        (PyVal.dict (dictSet kvs0 "orders" (PyVal.list (os0 ++ [rec])))) "orders"))
        (coOid (get_body body) g) = some rec := by
      rw [docList_of_lookup rfl (dlookup_dictSet_self _ _ _)]
      rw [dlookup_index_by_id, lastMatchRec_append_single, if_pos hrecHas]
    unfold get_order
    rw [hload2]
    dsimp only
    rw [hlook]

/-- C7, witness: a concrete create-then-get for a product and for an order
on the sample store, each returning the created record field-for-field. -/
theorem c7_witness :
    get_product "p-abcdef01" (create_product (PyVal.dict [("name", .str "N"),
        ("price", .int 2)]) "abcdef0123456789" "t" sampleSt).2 =
      (Resp.ok 200 (PyVal.dict [("id", PyVal.str "p-abcdef01"),
        ("name", PyVal.str "N"), ("price", PyVal.float 2),
        ("createdAt", PyVal.str "t")]),
       (create_product (PyVal.dict [("name", .str "N"), ("price", .int 2)])
         "abcdef0123456789" "t" sampleSt).2) ∧
    get_order "o-abcdef01" (create_order goodOrderBody "abcdef0123456789" "t"
        sampleSt).2 =
      (Resp.ok 200 (PyVal.dict [("id", PyVal.str "o-abcdef01"),
        ("customer", PyVal.str "A"),
        ("items", PyVal.list [PyVal.dict [("productId", PyVal.str "p1"),
          ("qty", PyVal.int 1)]]),
        ("status", PyVal.str "NEW"), ("createdAt", PyVal.str "t")]),
       (create_order goodOrderBody "abcdef0123456789" "t" sampleSt).2) :=
  ⟨c7_create_get_roundtrip.1 (PyVal.dict [("name", .str "N"), ("price", .int 2)])
      "abcdef0123456789" "t" sampleSt
      (PyVal.dict [("id", PyVal.str "p-abcdef01"), ("name", PyVal.str "N"),
        ("price", PyVal.float 2), ("createdAt", PyVal.str "t")])
      (create_product (PyVal.dict [("name", .str "N"), ("price", .int 2)])
        "abcdef0123456789" "t" sampleSt).2 "p-abcdef01" (by rfl) (by rfl),
   c7_create_get_roundtrip.2 goodOrderBody "abcdef0123456789" "t" sampleSt
      (PyVal.dict [("id", PyVal.str "o-abcdef01"), ("customer", PyVal.str "A"),
        ("items", PyVal.list [PyVal.dict [("productId", PyVal.str "p1"),
          ("qty", PyVal.int 1)]]),
        ("status", PyVal.str "NEW"), ("createdAt", PyVal.str "t")])
      (create_order goodOrderBody "abcdef0123456789" "t" sampleSt).2
      "o-abcdef01" (by rfl) (by rfl)⟩

/-- C8: updating an existing order (stored as the unique object with
stringified id `oid`, all orders being objects with ids) changes only the
supplied fields: the saved state replaces exactly that order's list cell
with the updated record; every field other than `status`, `customer` and
`items` (in particular `id` and `createdAt`) is unchanged; an unsupplied
`status`/`customer`/`items` keeps its stored value; a supplied `status` or
`customer` is stored stringified; and a supplied `items` list fully
replaces the old one with the validated normalized items. -/
theorem c8_update_order_frame (oid : String) (body : PyVal) (st : FileState)
    (data : PyVal) (os : List PyVal) (j : Nat) (rkvs : List (String × PyVal))
    (hload : (load_db st).1 = Except.ok data)
    (hos : docList data "orders" = os)
    (hdicts : ∀ o ∈ os, ∃ kvs, o = PyVal.dict kvs ∧ dmem kvs "id" = true)
    (hj : os.get? j = some (PyVal.dict rkvs))
    (hjid : pyStr (dget rkvs "id") = oid)
    (huniq : ∀ i kvs2, os.get? i = some (PyVal.dict kvs2) →
      pyStr (dget kvs2 "id") = oid → i = j) :
    ∀ rec st2, update_order oid body st = (Resp.ok 200 rec, st2) →
      st2 = save_db (docSet data "orders" (.list (os.set j rec))) ∧
      (∀ k, k ≠ "status" → k ≠ "customer" → k ≠ "items" →
        docGet rec k = dget rkvs k) ∧
      (dmem (get_body body) "status" = false →
        docGet rec "status" = dget rkvs "status") ∧
      (dmem (get_body body) "customer" = false →
        docGet rec "customer" = dget rkvs "customer") ∧
      (dmem (get_body body) "items" = false →
        docGet rec "items" = dget rkvs "items") ∧
      (dmem (get_body body) "status" = true →
        docGet rec "status" = .str (pyStr (dget (get_body body) "status"))) ∧
      (dmem (get_body body) "customer" = true →
        docGet rec "customer" = .str (pyStr (dget (get_body body) "customer"))) ∧
      (dmem (get_body body) "items" = true →
        ∃ its l, dget (get_body body) "items" = .list its ∧
          validate_items (index_by_id (docList data "products")) its = .ok l ∧
          docGet rec "items" = .list l) := by
  intro rec st2 h
  obtain ⟨data0, st1, r0, heq, hlook, hor, hfin⟩ := update_order_ok_shape h
  have hdata : data0 = data := by
    rw [heq] at hload
    simpa using hload
  subst hdata
  -- the index resolves oid to the unique matching cell
  have hjlen : j < os.length := by
    by_contra hge
    rw [List.get?_eq_none.mpr (Nat.le_of_not_lt hge)] at hj
    exact absurd hj (by simp)
  have huniq2 : ∀ i p, os.get? i = some p → (recHasId oid p = true ↔ i = j) := by
    intro i p hp
    constructor
    · intro hhas
      cases p with
      | dict kvs2 =>
          simp only [recHasId, Bool.and_eq_true, decide_eq_true_eq] at hhas
          exact huniq i kvs2 hp hhas.2
      | none => simp [recHasId] at hhas
      | bool b => simp [recHasId] at hhas
      | int n2 => simp [recHasId] at hhas
      | float q => simp [recHasId] at hhas
      | str s => simp [recHasId] at hhas
      | list xs => simp [recHasId] at hhas
    · intro hij
      subst hij
      rw [hj] at hp
      cases hp
      obtain ⟨kvs2, he, hmem⟩ := hdicts _ (List.get?_mem hj)
      cases he
      simp only [recHasId, hmem, hjid, Bool.true_and]
      simp
  have hlast : lastIdxWithId oid os = some j := lastIdxWithId_unique hjlen huniq2
  have hr0 : r0 = PyVal.dict rkvs := by
    rw [dlookup_index_by_id, hos, lastMatchRec_eq_idx, hlast] at hlook
    simp only [Option.bind] at hlook
    rw [hj] at hlook
    exact (Option.some.injEq .. |>.mp hlook).symm
  subst hr0
  -- decompose the updated record
  obtain ⟨kvs1, he1, hne1, hset1, hkeep1⟩ :=
    condSet_spec rkvs (dmem (get_body body) "status") "status"
      (.str (pyStr (dget (get_body body) "status")))
  obtain ⟨kvs2, he2, hne2, hset2, hkeep2⟩ :=
    condSet_spec kvs1 (dmem (get_body body) "customer") "customer"
      (.str (pyStr (dget (get_body body) "customer")))
  rw [← he1] at he2
  have hredict : ∃ kvsr, rec = PyVal.dict kvsr ∧
      (∀ k, k ≠ "status" → k ≠ "customer" → k ≠ "items" →
        dlookup kvsr k = dlookup rkvs k) ∧
      (dmem (get_body body) "status" = false →
        dlookup kvsr "status" = dlookup rkvs "status") ∧
      (dmem (get_body body) "customer" = false →
        dlookup kvsr "customer" = dlookup rkvs "customer") ∧
      (dmem (get_body body) "items" = false →
        dlookup kvsr "items" = dlookup rkvs "items") ∧
      (dmem (get_body body) "status" = true →
        dlookup kvsr "status" = some (.str (pyStr (dget (get_body body) "status")))) ∧
      (dmem (get_body body) "customer" = true →
        dlookup kvsr "customer" = some (.str (pyStr (dget (get_body body) "customer")))) ∧
      (dmem (get_body body) "items" = true →
        ∃ its l, dget (get_body body) "items" = .list its ∧
          validate_items (index_by_id (docList data0 "products")) its = .ok l ∧
          dlookup kvsr "items" = some (.list l)) := by
    rcases hor with ⟨hnomem, hrec⟩ | ⟨its, l, hmem, hits, hval, hrec⟩
    · rw [he2] at hrec
      refine ⟨kvs2, hrec, ?_, ?_, ?_, ?_, ?_, ?_, ?_⟩
      · intro k h1 h2 _
        rw [hne2 k h2, hne1 k h1]
      · intro hf
        rw [hne2 "status" (by decide), hkeep1 hf]
      · intro hf
        rw [hkeep2 hf, hne1 "customer" (by decide)]
      · intro _
        rw [hne2 "items" (by decide), hne1 "items" (by decide)]
      · intro ht
        rw [hne2 "status" (by decide), hset1 ht]
      · intro ht
        rw [hset2 ht]
      · intro ht
        rw [hnomem] at ht
        exact absurd ht (by simp)
    · rw [he2] at hrec
      rw [show pySetField (PyVal.dict kvs2) "items" (PyVal.list l) =
        PyVal.dict (dictSet kvs2 "items" (PyVal.list l)) from rfl] at hrec
      refine ⟨dictSet kvs2 "items" (PyVal.list l), hrec, ?_, ?_, ?_, ?_, ?_, ?_, ?_⟩
      · intro k h1 h2 h3
        rw [dlookup_dictSet_ne _ _ h3, hne2 k h2, hne1 k h1]
      · intro hf
        rw [dlookup_dictSet_ne _ _ (by decide), hne2 "status" (by decide), hkeep1 hf]
      · intro hf
        rw [dlookup_dictSet_ne _ _ (by decide), hkeep2 hf, hne1 "customer" (by decide)]
      · intro hf
        rw [hmem] at hf
        exact absurd hf (by simp)
      · intro ht
        rw [dlookup_dictSet_ne _ _ (by decide), hne2 "status" (by decide), hset1 ht]
      · intro ht
        rw [dlookup_dictSet_ne _ _ (by decide), hset2 ht]
      · intro _
        exact ⟨its, l, hits, hval, dlookup_dictSet_self _ _ _⟩
  obtain ⟨kvsr, hrec, hfr, hfs, hfc, hfi, hts, htc, hti⟩ := hredict
  -- the updated record still carries the same id
  have hrecid : pyStr (dget kvsr "id") = oid := by
    have hl := hfr "id" (by decide) (by decide) (by decide)
    have hx : dget kvsr "id" = dget rkvs "id" := by
      unfold dget
      rw [hl]
    rw [hx]
    exact hjid
  have hrecmem : dmem kvsr "id" = true := by
    have hx := hfr "id" (by decide) (by decide) (by decide)
    obtain ⟨kvsj, hej, hmemj⟩ := hdicts _ (List.get?_mem hj)
    cases hej
    simp only [dmem, hx]
    simpa [dmem] using hmemj
  -- the write-back loop stores the record at the same unique cell
  have hfirst : firstLoopIdx oid (os.set j rec) = .ok (some j) := by
    apply firstLoopIdx_unique
    · intro p hp
      rcases List.mem_or_eq_of_mem_set hp with hp2 | rfl
      · obtain ⟨kvsp, hep, _⟩ := hdicts p hp2
        exact ⟨kvsp, hep⟩
      · exact ⟨kvsr, hrec⟩
    · intro i p hp
      constructor
      · rintro ⟨kvsp, rfl, hid⟩
        by_contra hne
        rw [List.get?_set_ne _ _ (fun he => hne he.symm)] at hp
        exact hne (huniq i kvsp hp hid)
      · intro hij
        subst hij
        rw [List.get?_set_eq] at hp
        rw [hj] at hp
        simp only [Option.map_eq_map, Option.map_some] at hp
        cases hp
        exact ⟨kvsr, hrec, hrecid⟩
    · rw [List.length_set]
      exact hjlen
  have hfin2 := finishUpdate_unique "orders" data0 st1 hlast hfirst
  rw [hos] at hfin
  rw [hfin2] at hfin
  obtain ⟨_, hst2⟩ := Prod.mk.injEq .. |>.mp hfin
  refine ⟨hst2.symm, ?_, ?_, ?_, ?_, ?_, ?_, ?_⟩
  · intro k h1 h2 h3
    rw [hrec, docGet_dict]
    unfold dget
    rw [hfr k h1 h2 h3]
  · intro hf
    rw [hrec, docGet_dict]
    unfold dget
    rw [hfs hf]
  · intro hf
    rw [hrec, docGet_dict]
    unfold dget
    rw [hfc hf]
  · intro hf
    rw [hrec, docGet_dict]
    unfold dget
    rw [hfi hf]
  · intro ht
    rw [hrec, docGet_dict]
    unfold dget
    rw [hts ht]
    rfl
  · intro ht
    rw [hrec, docGet_dict]
    unfold dget
    rw [htc ht]
    rfl
  · intro ht
    obtain ⟨its, l, h1, h2, h3⟩ := hti ht
    refine ⟨its, l, h1, h2, ?_⟩
    rw [hrec, docGet_dict]
    unfold dget
    rw [h3]
    rfl

/-- C8, witness: updating the sample order `o1` with a status and a new
item list (customer not supplied) saves exactly that cell replaced, leaves
`createdAt` and `customer` untouched, stores the supplied status, and fully
replaces the item list with the validated one. -/
theorem c8_witness :
    (update_order "o1" (PyVal.dict [("status", PyVal.str "SHIPPED"),
        ("items", PyVal.list [PyVal.dict [("productId", PyVal.str "p1"),
          ("qty", PyVal.int 5)]])]) sampleSt).2 =
      save_db (docSet sampleDoc "orders"
        (PyVal.list ([sampleOrder].set 0 (PyVal.dict [("id", PyVal.str "o1"),
          ("customer", PyVal.str "Fatima"),
          ("items", PyVal.list [PyVal.dict [("productId", PyVal.str "p1"),
            ("qty", PyVal.int 5)]]),
          ("status", PyVal.str "SHIPPED"), ("createdAt", PyVal.str "T1")])))) ∧
    docGet (PyVal.dict [("id", PyVal.str "o1"), ("customer", PyVal.str "Fatima"),
        ("items", PyVal.list [PyVal.dict [("productId", PyVal.str "p1"),
          ("qty", PyVal.int 5)]]),
        ("status", PyVal.str "SHIPPED"), ("createdAt", PyVal.str "T1")]) "createdAt" =
      dget [("id", PyVal.str "o1"), ("customer", PyVal.str "Fatima"),
        ("items", PyVal.list [sampleOrderItem]), ("status", PyVal.str "NEW"),
        ("createdAt", PyVal.str "T1")] "createdAt" ∧
    docGet (PyVal.dict [("id", PyVal.str "o1"), ("customer", PyVal.str "Fatima"),
        ("items", PyVal.list [PyVal.dict [("productId", PyVal.str "p1"),
          ("qty", PyVal.int 5)]]),
        ("status", PyVal.str "SHIPPED"), ("createdAt", PyVal.str "T1")]) "customer" =
      dget [("id", PyVal.str "o1"), ("customer", PyVal.str "Fatima"),
        ("items", PyVal.list [sampleOrderItem]), ("status", PyVal.str "NEW"),
        ("createdAt", PyVal.str "T1")] "customer" ∧
    ∃ its l, dget (get_body (PyVal.dict [("status", PyVal.str "SHIPPED"),
        ("items", PyVal.list [PyVal.dict [("productId", PyVal.str "p1"),
          ("qty", PyVal.int 5)]])])) "items" = PyVal.list its ∧
      validate_items (index_by_id (docList sampleDoc "products")) its =
        .ok l ∧
      docGet (PyVal.dict [("id", PyVal.str "o1"), ("customer", PyVal.str "Fatima"),
        ("items", PyVal.list [PyVal.dict [("productId", PyVal.str "p1"),
          ("qty", PyVal.int 5)]]),
        ("status", PyVal.str "SHIPPED"), ("createdAt", PyVal.str "T1")]) "items" =
        PyVal.list l := by
  have H := c8_update_order_frame "o1" (PyVal.dict [("status", PyVal.str "SHIPPED"),
      ("items", PyVal.list [PyVal.dict [("productId", PyVal.str "p1"),
        ("qty", PyVal.int 5)]])]) sampleSt sampleDoc [sampleOrder] 0
    [("id", PyVal.str "o1"), ("customer", PyVal.str "Fatima"),
      ("items", PyVal.list [sampleOrderItem]), ("status", PyVal.str "NEW"),
      ("createdAt", PyVal.str "T1")]
    (by rfl) (by rfl)
    (by
      intro o ho
      rw [List.mem_singleton] at ho
      subst ho
      exact ⟨_, rfl, by rfl⟩)
    (by rfl) (by rfl)
    (by
      intro i kvs2 hp _
      cases i with
      | zero => rfl
      | succ k => simp at hp)
    (PyVal.dict [("id", PyVal.str "o1"), ("customer", PyVal.str "Fatima"),
      ("items", PyVal.list [PyVal.dict [("productId", PyVal.str "p1"),
        ("qty", PyVal.int 5)]]),
      ("status", PyVal.str "SHIPPED"), ("createdAt", PyVal.str "T1")])
    (update_order "o1" (PyVal.dict [("status", PyVal.str "SHIPPED"),
      ("items", PyVal.list [PyVal.dict [("productId", PyVal.str "p1"),
        ("qty", PyVal.int 5)]])]) sampleSt).2
    (by rfl)
  exact ⟨H.1, H.2.1 "createdAt" (by decide) (by decide) (by decide),
    H.2.2.2.1 (by rfl), H.2.2.2.2.2.2.2 (by rfl)⟩

/-- C6, counterexample: updating the stored product `p1` with an empty name
is accepted with 200 and stores the empty name — it is not rejected with
BadRequest as the claim requires. -/
theorem c6_counterexample :
    (update_product "p1" (PyVal.dict [("name", PyVal.str "")]) sampleSt).1 =
      Resp.ok 200 (PyVal.dict [("id", PyVal.str "p1"), ("name", PyVal.str ""),
        ("price", PyVal.int 3), ("createdAt", PyVal.str "T0")]) ∧
    ∀ m, (update_product "p1" (PyVal.dict [("name", PyVal.str "")]) sampleSt).1 ≠
      Resp.badRequest m := by
  have h0 : (update_product "p1" (PyVal.dict [("name", PyVal.str "")]) sampleSt).1 =
      Resp.ok 200 (PyVal.dict [("id", PyVal.str "p1"), ("name", PyVal.str ""),
        ("price", PyVal.int 3), ("createdAt", PyVal.str "T0")]) := by rfl
  refine ⟨h0, ?_⟩
  intro m h
  rw [h0] at h
  exact Resp.noConfusion h

/-- C6, amended: on update of an existing product, a supplied `price` is
re-validated exactly as on creation — both create and update reject with
BadRequest precisely when `float()` fails on it — but a supplied `name` is
not re-validated: it is coerced to a string and stored unconditionally, so
an empty name is accepted on update. -/
theorem c6_update_validation :
    (∀ (pid : String) (body : PyVal) (st : FileState) (data r0 : PyVal),
      (load_db st).1 = Except.ok data →
      dlookup (index_by_id (docList data "products")) pid = some r0 →
      dmem (get_body body) "price" = true →
      ((∃ m st2, update_product pid body st = (Resp.badRequest m, st2)) ↔
        pyFloat (dget (get_body body) "price") = Option.none)) ∧
    (∀ (body : PyVal) (g n : String) (st : FileState),
      pyFloat (dget (get_body body) "price") = Option.none →
      ∃ m, (create_product body g n st).1 = Resp.badRequest m) ∧
    (∀ (pid : String) (body : PyVal) (st : FileState) (rec : PyVal)
        (st2 : FileState),
      update_product pid body st = (Resp.ok 200 rec, st2) →
      dmem (get_body body) "name" = true →
      docGet rec "name" = .str (pyStr (dget (get_body body) "name"))) := by
  refine ⟨?_, ?_, ?_⟩
  · intro pid body st data r0 hload hlook hmem
    constructor
    · rintro ⟨m, st2, hbr⟩
      exact (update_product_badRequest_price hbr).2
    · intro hpf
      rcases hr : update_product pid body st with ⟨r, st3⟩
      cases r with
      | badRequest m => exact ⟨m, st3, rfl⟩
      | ok c rec =>
          obtain ⟨data0, st1, r1, heq, _, hor, _⟩ := update_product_ok_shape hr
          rcases hor with ⟨hf, _⟩ | ⟨q, _, hq, _⟩
          · rw [hmem] at hf
            exact absurd hf (by simp)
          · rw [hpf] at hq
            exact absurd hq (by simp)
      | notFound m =>
          have hn := update_product_notFound_lookup hr hload
          rw [hn] at hlook
          exact absurd hlook (by simp)
      | err =>
          obtain ⟨q, hq⟩ := update_product_err_price hr hload hmem
          rw [hpf] at hq
          exact absurd hq (by simp)
  · intro body g n st hpf
    rcases hr : create_product body g n st with ⟨r, st3⟩
    cases r with
    | badRequest m => exact ⟨m, rfl⟩
    | ok c rec =>
        obtain ⟨data0, st1, q, _, _, hq, _⟩ := create_product_ok_shape hr
        rw [hpf] at hq
        exact absurd hq (by simp)
    | notFound m => exact (create_product_not_notFound hr).elim
    | err =>
        obtain ⟨q, hq⟩ := create_product_err_price hr
        rw [hpf] at hq
        exact absurd hq (by simp)
  · intro pid body st rec st2 h hname
    obtain ⟨data0, st1, r0, heq, hlook, hor, _⟩ := update_product_ok_shape h
    rw [dlookup_index_by_id] at hlook
    obtain ⟨kvs0, hdict, _, _, _⟩ := lastMatchRec_spec hlook
    subst hdict
    rcases hor with ⟨_, hrec⟩ | ⟨q, _, _, hrec⟩
    · rw [hrec, if_pos hname]
      show docGet (PyVal.dict (dictSet kvs0 "name" _)) "name" = _
      rw [docGet_dict, dget_dictSet_self]
    · rw [hrec, if_pos hname]
      show docGet (pySetField (PyVal.dict (dictSet kvs0 "name" _)) "price" _) "name" = _
      show docGet (PyVal.dict (dictSet (dictSet kvs0 "name" _) "price" _)) "name" = _
      rw [docGet_dict, dget_dictSet_ne _ _ (by decide), dget_dictSet_self]

/-- C6, witness: an unparseable price on update of `p1` yields a 400 (the
iff applied right-to-left); the same price fails creation; and an update
supplying the empty name succeeds with the empty name stored. -/
theorem c6_witness :
    (∃ m st2, update_product "p1" (PyVal.dict [("price", PyVal.str "x")]) sampleSt =
      (Resp.badRequest m, st2)) ∧
    (∃ m, (create_product (PyVal.dict [("name", PyVal.str "X"),
      ("price", PyVal.str "x")]) "g" "t" sampleSt).1 = Resp.badRequest m) ∧
    docGet (PyVal.dict [("id", PyVal.str "p1"), ("name", PyVal.str ""),
        ("price", PyVal.int 3), ("createdAt", PyVal.str "T0")]) "name" =
      .str (pyStr (dget (get_body (PyVal.dict [("name", PyVal.str "")])) "name")) :=
  ⟨(c6_update_validation.1 "p1" (PyVal.dict [("price", PyVal.str "x")]) sampleSt
      sampleDoc sampleProduct (by rfl) (by rfl) (by rfl)).mpr (by rfl),
   c6_update_validation.2.1 (PyVal.dict [("name", PyVal.str "X"),
      ("price", PyVal.str "x")]) "g" "t" sampleSt (by rfl),
   c6_update_validation.2.2 "p1" (PyVal.dict [("name", PyVal.str "")]) sampleSt
      (PyVal.dict [("id", PyVal.str "p1"), ("name", PyVal.str ""),
        ("price", PyVal.int 3), ("createdAt", PyVal.str "T0")])
      (update_product "p1" (PyVal.dict [("name", PyVal.str "")]) sampleSt).2
      (by rfl) (by rfl)⟩

/-- C5, counterexample: a persisted file whose content is well-formed JSON
(`5`) — so not absent, blank, or malformed — still makes `load_db` fail
instead of returning a repaired document with `products`/`orders`
sequences: the defensive repair only applies to parsed objects. -/
theorem c5_counterexample :
    (load_db (FileState.wellFormed (.int 5))).1 = Except.error () ∧
    FileState.wellFormed (.int 5) ≠ FileState.malformed ∧
    FileState.wellFormed (.int 5) ≠ FileState.absent ∧
    FileState.wellFormed (.int 5) ≠ FileState.blank :=
  ⟨rfl, fun h => FileState.noConfusion h, fun h => FileState.noConfusion h,
    fun h => FileState.noConfusion h⟩

/-- C5, amended: an absent or empty/whitespace-only file is initialized to
`{products: [], orders: []}`; malformed JSON is an error; a parsed JSON
object has a missing or non-sequence `products`/`orders` field replaced by
an empty sequence (and kept when it is a sequence); but a well-formed
non-object JSON document also fails with an error rather than being
repaired. -/
theorem c5_load_repairs :
    (load_db FileState.absent =
      (Except.ok defaultDoc, FileState.wellFormed defaultDoc)) ∧
    (load_db FileState.blank =
      (Except.ok defaultDoc, FileState.wellFormed defaultDoc)) ∧
    (load_db FileState.malformed = (Except.error (), FileState.malformed)) ∧
    (∀ kvs : List (String × PyVal), ∃ kvs2,
      load_db (FileState.wellFormed (.dict kvs)) =
        (Except.ok (.dict kvs2), FileState.wellFormed (.dict kvs)) ∧
      (∃ ps, dlookup kvs2 "products" = some (.list ps)) ∧
      (∃ os, dlookup kvs2 "orders" = some (.list os)) ∧
      (∀ l, dlookup kvs "products" = some (.list l) →
        dlookup kvs2 "products" = some (.list l)) ∧
      ((∀ l, dlookup kvs "products" ≠ some (.list l)) →
        dlookup kvs2 "products" = some (.list [])) ∧
      (∀ l, dlookup kvs "orders" = some (.list l) →
        dlookup kvs2 "orders" = some (.list l)) ∧
      ((∀ l, dlookup kvs "orders" ≠ some (.list l)) →
        dlookup kvs2 "orders" = some (.list []))) ∧
    (∀ v : PyVal, (∀ kvs, v ≠ .dict kvs) →
      load_db (FileState.wellFormed v) = (Except.error (), FileState.wellFormed v)) := by
  have hne : "products" ≠ "orders" := by decide
  refine ⟨rfl, rfl, rfl, ?_, ?_⟩
  · intro kvs
    refine ⟨fixField (fixField kvs "products") "orders", rfl, ?_, ?_, ?_, ?_, ?_, ?_⟩
    · rw [fixField_lookup_ne _ hne]
      exact fixField_lookup_self _ _
    · exact fixField_lookup_self _ _
    · intro l hl
      rw [fixField_lookup_ne _ hne, fixField_keep hl]
      exact hl
    · intro hl
      rw [fixField_lookup_ne _ hne, fixField_set hl]
      exact dlookup_dictSet_self _ _ _
    · intro l hl
      have hl2 : dlookup (fixField kvs "products") "orders" = some (.list l) := by
        rw [fixField_lookup_ne _ (Ne.symm hne)]
        exact hl
      rw [fixField_keep hl2]
      exact hl2
    · intro hl
      have hl2 : ∀ l, dlookup (fixField kvs "products") "orders" ≠ some (.list l) := by
        intro l
        rw [fixField_lookup_ne _ (Ne.symm hne)]
        exact hl l
      rw [fixField_set hl2]
      exact dlookup_dictSet_self _ _ _
  · intro v hv
    cases v with
    | dict kvs => exact absurd rfl (hv kvs)
    | none => rfl
    | bool b => rfl
    | int n => rfl
    | float q => rfl
    | str s => rfl
    | list xs => rfl

/-- C5, witness: the amended theorem evaluated at a non-object document and
at an object whose `products` key is missing and whose `orders` key is not
a sequence. -/
theorem c5_witness :
    load_db (FileState.wellFormed (.bool true)) =
      (Except.error (), FileState.wellFormed (.bool true)) ∧
    ∃ kvs2, load_db (FileState.wellFormed (.dict [("orders", .str "x")])) =
        (Except.ok (.dict kvs2), FileState.wellFormed (.dict [("orders", .str "x")])) ∧
      dlookup kvs2 "products" = some (.list []) ∧
      dlookup kvs2 "orders" = some (.list []) := by
  refine ⟨c5_load_repairs.2.2.2.2 (.bool true) (fun kvs h => PyVal.noConfusion h), ?_⟩
  obtain ⟨kvs2, heq, _, _, _, hpr, _, hor⟩ :=
    c5_load_repairs.2.2.2.1 [("orders", .str "x")]
  refine ⟨kvs2, heq, hpr ?_, hor ?_⟩
  · intro l h
    simp [dlookup] at h
  · intro l h
    simp [dlookup] at h

/-- C1: after a delete-product on `pid` that answers 200, the saved document
has no product record whose stringified id is `pid`, and in every surviving
order that is an object with a list-valued `items` field, no item references
`pid` (the cascade dropped them); nothing prevents an order from being left
with an empty item list.  Success guarantees every surviving product and
every scanned item is an object, since a non-object would have raised before
the save. -/
theorem c1_delete_product_cascade {pid : String} {st : FileState}
    {bdy : PyVal} {st2 : FileState}
    (h : delete_product pid st = (Resp.ok 200 bdy, st2)) :
    ∃ data2, st2 = FileState.wellFormed data2 ∧
      (∀ p ∈ docList data2 "products",
        ∃ kvs, p = PyVal.dict kvs ∧ pyStr (dget kvs "id") ≠ pid) ∧
      (∀ o ∈ docList data2 "orders", ∀ kvs its, o = PyVal.dict kvs →
        dget kvs "items" = PyVal.list its →
        ∀ it ∈ its, ∃ ikvs, it = PyVal.dict ikvs ∧
          pyStr (dget ikvs "productId") ≠ pid) := by
  unfold delete_product at h
  dsimp only at h
  split at h
  · simp at h
  next data st1 heq =>
    split at h
    · simp at h
    next newProducts hfil =>
      split at h
      · simp at h
      · split at h
        · simp at h
        next newOrders hprun =>
          obtain ⟨kvs0, hdata⟩ := load_db_ok_dict
            (show (load_db st).1 = Except.ok data by rw [heq])
          obtain ⟨h1, h2⟩ := Prod.mk.injEq .. |>.mp h
          refine ⟨_, h2.symm, ?_, ?_⟩
          · intro p hp
            have hprod : docList (docSet (docSet data "products" (PyVal.list newProducts))
                "orders" (PyVal.list newOrders)) "products" = newProducts := by
              subst hdata
              refine docList_of_lookup rfl ?_
              show dlookup (dictSet (dictSet kvs0 "products" (PyVal.list newProducts))
                "orders" (PyVal.list newOrders)) "products" = _
              rw [dlookup_dictSet_ne _ _ (by decide), dlookup_dictSet_self]
            rw [hprod] at hp
            exact filterNotStrEq_ok_mem hfil p hp
          · intro o ho
            have hord : docList (docSet (docSet data "products" (PyVal.list newProducts))
                "orders" (PyVal.list newOrders)) "orders" = newOrders := by
              subst hdata
              refine docList_of_lookup rfl ?_
              show dlookup (dictSet (dictSet kvs0 "products" (PyVal.list newProducts))
                "orders" (PyVal.list newOrders)) "orders" = _
              rw [dlookup_dictSet_self]
            rw [hord] at ho
            exact pruneOrders_ok_mem hprun o ho

/-- C1, witness: deleting the only product from the sample store answers
200, prunes the one order down to an empty item list (showing empty item
lists are permitted), and satisfies the cascade theorem. -/
theorem c1_witness :
    (delete_product "p1" sampleSt =
      (Resp.ok 200 (PyVal.dict [("deleted", PyVal.str "p1")]),
       FileState.wellFormed (PyVal.dict
         [("products", PyVal.list []),
          ("orders", PyVal.list [PyVal.dict
            [("id", PyVal.str "o1"), ("customer", PyVal.str "Fatima"),
             ("items", PyVal.list []), ("status", PyVal.str "NEW"),
             ("createdAt", PyVal.str "T1")]])]))) ∧
    ∃ data2, (delete_product "p1" sampleSt).2 = FileState.wellFormed data2 ∧
      (∀ p ∈ docList data2 "products",
        ∃ kvs, p = PyVal.dict kvs ∧ pyStr (dget kvs "id") ≠ "p1") ∧
      (∀ o ∈ docList data2 "orders", ∀ kvs its, o = PyVal.dict kvs →
        dget kvs "items" = PyVal.list its →
        ∀ it ∈ its, ∃ ikvs, it = PyVal.dict ikvs ∧
          pyStr (dget ikvs "productId") ≠ "p1") := by
  constructor
  · rfl
  · exact c1_delete_product_cascade (by rfl :
      delete_product "p1" sampleSt =
        (Resp.ok 200 (PyVal.dict [("deleted", PyVal.str "p1")]),
         (delete_product "p1" sampleSt).2))

/-- C2: whenever a create or update on either collection answers
BadRequest (400), the persisted file is either untouched or merely
materialized by `ensure_db_exists`, and the document `load_db` returns is
exactly what it was before the request — no partial mutation (such as the
status/customer assignments `update_order` makes before rejecting an
invalid items list) is ever saved.  The two delete handlers have no 400
path at all, so the claim is vacuous for them. -/
theorem c2_badRequest_leaves_store :
    (∀ (body : PyVal) (g n : String) (st : FileState) (m : String) (st2 : FileState),
      create_product body g n st = (Resp.badRequest m, st2) →
      (st2 = st ∨ st2 = ensure_db_exists st) ∧ (load_db st2).1 = (load_db st).1) ∧
    (∀ (pid : String) (body : PyVal) (st : FileState) (m : String) (st2 : FileState),
      update_product pid body st = (Resp.badRequest m, st2) →
      (st2 = st ∨ st2 = ensure_db_exists st) ∧ (load_db st2).1 = (load_db st).1) ∧
    (∀ (body : PyVal) (g n : String) (st : FileState) (m : String) (st2 : FileState),
      create_order body g n st = (Resp.badRequest m, st2) →
      (st2 = st ∨ st2 = ensure_db_exists st) ∧ (load_db st2).1 = (load_db st).1) ∧
    (∀ (oid : String) (body : PyVal) (st : FileState) (m : String) (st2 : FileState),
      update_order oid body st = (Resp.badRequest m, st2) →
      (st2 = st ∨ st2 = ensure_db_exists st) ∧ (load_db st2).1 = (load_db st).1) :=
  ⟨fun _ _ _ _ _ _ h => create_product_badRequest_state h,
   fun _ _ _ _ _ h => update_product_badRequest_state h,
   fun _ _ _ _ _ _ h => create_order_badRequest_state h,
   fun _ _ _ _ _ h => update_order_badRequest_state h⟩

/-- C2, witness: concrete 400s for all four handlers — a missing name, an
unparseable price on an existing product, a missing items list, and an
update that pairs a valid status with an empty items list — each leaving
the sample store exactly as it was. -/
theorem c2_witness :
    (sampleSt = sampleSt ∨ sampleSt = ensure_db_exists sampleSt) ∧
    (load_db sampleSt).1 = (load_db sampleSt).1 ∧
    create_product (.dict []) "g" "t" sampleSt =
      (Resp.badRequest "Field \x27name\x27 is required", sampleSt) ∧
    update_product "p1" (.dict [("price", .str "x")]) sampleSt =
      (Resp.badRequest "Field \x27price\x27 must be a number", sampleSt) ∧
    create_order (.dict [("customer", .str "A")]) "g" "t" sampleSt =
      (Resp.badRequest "Field \x27items\x27 must be a non-empty list", sampleSt) ∧
    update_order "o1" (.dict [("status", .str "X"), ("items", .list [])]) sampleSt =
      (Resp.badRequest "items must be a non-empty list", sampleSt) :=
  ⟨(c2_badRequest_leaves_store.1 (.dict []) "g" "t" sampleSt _ sampleSt (by rfl)).1,
   (c2_badRequest_leaves_store.2.2.2 "o1" (.dict [("status", .str "X"), ("items", .list [])])
      sampleSt _ sampleSt (by rfl)).2,
   by rfl, by rfl, by rfl, by rfl⟩

/-- C9, counterexample: a GET on an absent file mutates the persisted
state — `ensure_db_exists`, run by every `load_db`, materializes the
default document, so the stored state after the read differs from the
starting state. -/
theorem c9_counterexample :
    runGets [GetOp.listProducts] FileState.absent = FileState.wellFormed defaultDoc ∧
    FileState.wellFormed defaultDoc ≠ FileState.absent :=
  ⟨rfl, fun h => FileState.noConfusion h⟩

/-- C9, amended: a non-empty sequence of GET operations leaves the persisted
state at `ensure_db_exists` of the starting state — unchanged whenever the
file already exists with non-blank content, and initialized to the default
empty document exactly once otherwise — and never changes the logical
document `load_db` returns. -/
theorem c9_gets_fix_state (ops : List GetOp) (st : FileState) (h : ops ≠ []) :
    runGets ops st = ensure_db_exists st ∧
    (load_db (runGets ops st)).1 = (load_db st).1 := by
  obtain ⟨op, rest, rfl⟩ : ∃ op rest, ops = op :: rest := by
    cases ops with
    | nil => exact absurd rfl h
    | cons op rest => exact ⟨op, rest, rfl⟩
  have hrun : runGets (op :: rest) st = ensure_db_exists st := by
    show runGets rest (runGet op st).2 = ensure_db_exists st
    rw [runGet_snd]
    exact runGets_fix rest (ensure_idem st)
  refine ⟨hrun, ?_⟩
  rw [hrun, load_db_ensure]

/-- C9, witness: the amended theorem evaluated on a one-element GET sequence
starting from a malformed file (left untouched). -/
theorem c9_witness :
    runGets [GetOp.getOrder "o1"] FileState.malformed =
      ensure_db_exists FileState.malformed ∧
    (load_db (runGets [GetOp.getOrder "o1"] FileState.malformed)).1 =
      (load_db FileState.malformed).1 :=
  c9_gets_fix_state [GetOp.getOrder "o1"] FileState.malformed
    (List.cons_ne_nil _ _)

end ProductOrdersApi
